import Mathlib

/-!
Shallow embedding of the game-state engine of `src/model.rs`
(IT_ONE-Cup-Mobile-23): pipes with drifting values, per-player scores,
purchasable modifiers, and the collect / inspect-value / apply-modifier
operations.

Modelling conventions:
- Rust `i64` scores become `Int` (no arithmetic in the engine comes near
  the `i64` range, all operations are `+1`, `-1`, `*2`, and bounded
  config values, so overflow is not modelled).
- `HashMap<Modifier, usize>` becomes a total function
  `Modifier → Option Nat` (the key type is a five-element enum).
- `Duration` delays become abstract `Nat` ticks; the only operation the
  engine performs on them is doubling (`delay *= 2`), which is exact.
  The floating-point delay bounds of the config, used only to draw the
  random base delay, are not modelled: the drawn delay is an oracle
  argument.
- Randomness (`random_pipe_value`, `random_pipe_delay`,
  `PipeDirection::random`) becomes oracle arguments to `App.init` and
  (for Shuffle) to `apply_modifier`.
- The async mutexes become explicit state: the per-player lock is a
  `locked : String → Bool` flag set for the whole operation
  (`try_lock_arc` fails exactly when the flag is already set), and each
  operation body is the straight-line code between its awaits.
- The event log (`App::log` fan-out plus history) becomes the
  append-only `history : List LogMessage`.
-/

/-- `pub type Score = i64;` -/
abbrev Score := Int

/-- The `Modifier` enum of `model.rs`. -/
inductive Modifier
  | slow
  | double
  | min
  | shuffle
  | reverse
deriving DecidableEq, Fintype

/-- The `PipeDirection` enum of `model.rs`. -/
inductive PipeDirection
  | up
  | down
deriving DecidableEq

/-- `PipeDirection::inverse`. -/
def PipeDirection.inverse : PipeDirection → PipeDirection
  | .up => .down
  | .down => .up

/-- The fields of `Config` the engine logic reads.  The floating-point
delay bounds (`min_delay_secs`, `max_delay_secs`, `pipe_value_delay_secs`)
and `time_to_run` are consumed only by the random-delay oracle, the
inspection sleep and the match runner, none of which are modelled. -/
structure Config where
  reverse_cost : Score
  double_cost : Score
  double_uses : Nat
  slow_cost : Score
  slow_uses : Nat
  shuffle_cost : Score
  min_cost : Score
  min_uses : Nat
  pipe_count : Nat
  min_value : Score
  max_value : Score
deriving DecidableEq

/-- `Config::modifier_cost`. -/
def Config.modifier_cost (c : Config) : Modifier → Score
  | .slow => c.slow_cost
  | .double => c.double_cost
  | .min => c.min_cost
  | .shuffle => c.shuffle_cost
  | .reverse => c.reverse_cost

/-- The `uses` match inside `App::apply_modifier` (only reached for the
three stacking kinds; the other two arms are `unreachable!`). -/
def Config.modifier_uses (c : Config) : Modifier → Nat
  | .slow => c.slow_uses
  | .double => c.double_uses
  | .min => c.min_uses
  | .shuffle => 0
  | .reverse => 0

/-- The `Pipe` struct of `model.rs`. -/
@[ext]
structure Pipe where
  value : Score
  base_delay : Nat
  direction : PipeDirection
  modifiers : Modifier → Option Nat

/-- `Pipe::use_modifier`: decrement the use-count of `m` if an entry is
present, removing the entry when it reaches zero; the `Bool` reports
whether an entry was found.

The Rust function starts with `assert_ne!(*uses_left, 0)` and aborts
the process on a stored zero count; that abort has no return value to
translate, so this total function gives the post-assert behaviour and
is a faithful model only of calls where the stored count is positive.
`Pipe.use_modifier_panics` below marks the aborting calls explicitly,
and every theorem that asserts a successful collect assumes (and
concludes) that no call on its path satisfies it. -/
def Pipe.use_modifier (p : Pipe) (m : Modifier) : Pipe × Bool :=
  match p.modifiers m with
  | none => (p, false)
  | some uses_left =>
    let uses_left := uses_left - 1
    if uses_left = 0 then
      ({ p with modifiers := fun k => if k = m then none else p.modifiers k }, true)
    else
      ({ p with modifiers := fun k => if k = m then some uses_left else p.modifiers k }, true)

/-- The exact condition under which `Pipe::use_modifier` hits its
`assert_ne!(*uses_left, 0)` and the Rust process aborts mid-operation:
a stored entry for `m` whose use-count is zero.  (`modifiers m = none`
returns early and a positive count decrements, so these are the only
aborting calls.) -/
def Pipe.use_modifier_panics (p : Pipe) (m : Modifier) : Prop :=
  p.modifiers m = some 0

/-- The `Error` enum of `model.rs`.  (The spec names these
`PlayerUnknown` / `PlayerBusy` / `InsufficientScore` for
`UserNotFound` / `UserBusy` / `NotEnoughScore`.) -/
inductive Error
  | UserNotFound
  | UserBusy
  | PipeNotFound
  | NotEnoughScore
  | ModifierAlreadyApplied
deriving DecidableEq

instance {ε α : Type} [DecidableEq ε] [DecidableEq α] : DecidableEq (Except ε α) :=
  fun x y =>
    match x, y with
    | .error a, .error b =>
      if h : a = b then isTrue (by rw [h]) else isFalse (fun hc => h (by injection hc))
    | .ok a, .ok b =>
      if h : a = b then isTrue (by rw [h]) else isFalse (fun hc => h (by injection hc))
    | .error _, .ok _ => isFalse (fun hc => Except.noConfusion hc)
    | .ok _, .error _ => isFalse (fun hc => Except.noConfusion hc)

/-- The `LogMessage` enum of `model.rs` (with `U = UserToken`); the
`UpdateUser` payload is the `User` struct, i.e. just a score. -/
inductive LogMessage
  | CollectStart (user : String) (pipe_id : Nat) (delay : Nat)
  | UpdatePipe (id : Nat) (state : Pipe)
  | CollectEnd (user : String)
  | UpdateUser (user : String) (score : Score)

/-- The mutable state behind `App`: the user map (each `User` is just a
score), the per-user lock flags, the pipe map, and the log history.
`allow_unknown_users` is set once at `init`. -/
@[ext]
structure AppState where
  allow_unknown_users : Bool
  users : String → Option Score
  locked : String → Bool
  pipes : Nat → Option Pipe
  history : List LogMessage

/-- Append one event to the log (`App::log`: fan-out to subscribers,
then push to history; only the history is modelled). -/
def AppState.logMsg (s : AppState) (m : LogMessage) : AppState :=
  { s with history := s.history ++ [m] }

/-- Release the per-user lock (dropping the `MutexGuardArc`). -/
def AppState.unlockUser (s : AppState) (token : String) : AppState :=
  { s with locked := fun t => if t = token then false else s.locked t }

/-- Overwrite the stored state of pipe `id` (mutation under its lock). -/
def AppState.setPipe (s : AppState) (id : Nat) (p : Pipe) : AppState :=
  { s with pipes := fun i => if i = id then some p else s.pipes i }

/-- Overwrite the stored score of `token` (mutation under its lock). -/
def AppState.setUser (s : AppState) (token : String) (sc : Score) : AppState :=
  { s with users := fun t => if t = token then some sc else s.users t }

/-- `App::try_lock_user`: under an open roster an unseen token gets a
fresh default user (score 0) inserted before any other check; a missing
user under a closed roster is `UserNotFound`; a user whose lock is held
is `UserBusy`.  On success the lock is set and the user's current score
is returned. -/
def AppState.try_lock_user (s : AppState) (token : String) :
    AppState × Except Error Score :=
  match s.users token with
  | some sc =>
    if s.locked token then
      (s, .error .UserBusy)
    else
      ({ s with locked := fun t => if t = token then true else s.locked t }, .ok sc)
  | none =>
    if s.allow_unknown_users then
      -- Create new user on demand; its freshly created lock is acquired.
      ({ s with
          users := fun t => if t = token then some 0 else s.users t,
          locked := fun t => if t = token then true else s.locked t }, .ok 0)
    else
      (s, .error .UserNotFound)

/-- `App::pipe`: look the pipe up, `PipeNotFound` if the id is absent. -/
def AppState.pipe (s : AppState) (id : Nat) : Except Error Pipe :=
  match s.pipes id with
  | some p => .ok p
  | none => .error .PipeNotFound

/-- The value-advance block at the end of `App::collect`:
`pipe.value += ±1` by direction, then wrap to the opposite bound when
the result leaves `[min_value, max_value]`. -/
def wrapStep (cfg : Config) (v : Score) (d : PipeDirection) : Score :=
  let v1 := v + (match d with | .up => 1 | .down => -1)
  if v1 < cfg.min_value then cfg.max_value
  else if v1 > cfg.max_value then cfg.min_value
  else v1

/-- The body of `App::collect` after the user lock is acquired
(`s1` is the state it left, `userScore` the locked user's score).
Straight-line translation of the async body: look up the pipe; consume
a Slow use (doubling the delay) and log `UpdatePipe`; log
`CollectStart`; sleep; log `CollectEnd`; re-read the pipe, consume
Double then Min to compute the awarded score; credit the user; advance
the pipe value by ±1 with wraparound at the config bounds; log
`UpdatePipe` then `UpdateUser`; release the lock. -/
def collect_body (cfg : Config) (s1 : AppState) (token : String) (pipe_id : Nat)
    (userScore : Score) : AppState × Except Error Score :=
    match s1.pipes pipe_id with
    | none => (s1.unlockUser token, .error .PipeNotFound)
    | some pipe0 =>
      let slowRes := pipe0.use_modifier .slow
      let delay := if slowRes.2 then pipe0.base_delay * 2 else pipe0.base_delay
      let s2 := (s1.setPipe pipe_id slowRes.1).logMsg (.UpdatePipe pipe_id slowRes.1)
      let s3 := s2.logMsg (.CollectStart token pipe_id delay)
      -- sleep(delay).await
      let s4 := s3.logMsg (.CollectEnd token)
      let pipeA := slowRes.1
      let doubleRes := pipeA.use_modifier .double
      let score1 := if doubleRes.2 then pipeA.value * 2 else pipeA.value
      let minRes := doubleRes.1.use_modifier .min
      let score := if minRes.2 then cfg.min_value else score1
      let newScore := userScore + score
      let pipeD := { minRes.1 with value := wrapStep cfg minRes.1.value minRes.1.direction }
      let s5 := ((s4.setUser token newScore).setPipe pipe_id pipeD).logMsg
        (.UpdatePipe pipe_id pipeD)
      let s6 := (s5.logMsg (.UpdateUser token newScore)).unlockUser token
      (s6, .ok score)

/-- `App::collect` proper: lock the user (propagating `UserBusy` /
`UserNotFound`), then run the body above. -/
def collect (cfg : Config) (s : AppState) (token : String) (pipe_id : Nat) :
    AppState × Except Error Score :=
  match s.try_lock_user token with
  | (s1, .error e) => (s1, .error e)
  | (s1, .ok userScore) => collect_body cfg s1 token pipe_id userScore

/-- `App::pipe_value` (the spec's InspectValue): lock the user, look up
the pipe, sleep for the configured inspection delay, read the value.
No state is mutated beyond the lock round-trip and (under an open
roster) lazy user creation. -/
def pipe_value (s : AppState) (token : String) (pipe_id : Nat) :
    AppState × Except Error Score :=
  match s.try_lock_user token with
  | (s1, .error e) => (s1, .error e)
  | (s1, .ok _) =>
    match s1.pipes pipe_id with
    | none => (s1.unlockUser token, .error .PipeNotFound)
    | some p => (s1.unlockUser token, .ok p.value)

/-- The body of `App::apply_modifier` after the user lock is acquired.
`newDelay` is the oracle for `random_pipe_delay`, consumed only by the
Shuffle arm.  Straight-line translation: look up the pipe; compare the
score against the configured cost (`NotEnoughScore` if short); for a
stacking kind refuse a duplicate (`ModifierAlreadyApplied`) or install
the configured use-count, for Shuffle re-roll the base delay, for
Reverse flip the direction; debit the cost; log `UpdateUser` then
`UpdatePipe`; release the lock. -/
def apply_modifier_body (cfg : Config) (s1 : AppState) (token : String) (pipe_id : Nat)
    (modifier : Modifier) (newDelay : Nat) (userScore : Score) :
    AppState × Except Error Unit :=
    match s1.pipes pipe_id with
    | none => (s1.unlockUser token, .error .PipeNotFound)
    | some pipe =>
      let cost := cfg.modifier_cost modifier
      if userScore < cost then
        (s1.unlockUser token, .error .NotEnoughScore)
      else
        let commit := fun (pipe' : Pipe) =>
          let s2 := (s1.setUser token (userScore - cost)).setPipe pipe_id pipe'
          let s3 := (s2.logMsg (.UpdateUser token (userScore - cost))).logMsg
            (.UpdatePipe pipe_id pipe')
          (s3.unlockUser token, Except.ok ())
        match modifier with
        | .slow | .double | .min =>
          if (pipe.modifiers modifier).isSome then
            (s1.unlockUser token, .error .ModifierAlreadyApplied)
          else
            commit { pipe with
              modifiers := fun k =>
                if k = modifier then some (cfg.modifier_uses modifier)
                else pipe.modifiers k }
        | .shuffle => commit { pipe with base_delay := newDelay }
        | .reverse => commit { pipe with direction := pipe.direction.inverse }

/-- `App::apply_modifier` proper: lock the user, then run the body. -/
def apply_modifier (cfg : Config) (s : AppState) (token : String) (pipe_id : Nat)
    (modifier : Modifier) (newDelay : Nat) : AppState × Except Error Unit :=
  match s.try_lock_user token with
  | (s1, .error e) => (s1, .error e)
  | (s1, .ok userScore) => apply_modifier_body cfg s1 token pipe_id modifier newDelay userScore

/-- `App::init`, with the random draws supplied as oracles: pipe `i`
(for `1 ≤ i ≤ pipe_count`) gets value `values i`, base delay `delays i`
and direction `dirs i`.  An empty roster opens the roster
(`allow_unknown_users`); a fixed roster pre-creates each user with the
default score 0.  The initial history holds one `UpdateUser` per roster
entry followed by one `UpdatePipe` per pipe. -/
def App.init (cfg : Config) (tokens : List String)
    (values : Nat → Score) (delays : Nat → Nat) (dirs : Nat → PipeDirection) :
    AppState :=
  { allow_unknown_users := tokens.isEmpty
    users := fun t => if t ∈ tokens then some 0 else none
    locked := fun _ => false
    pipes := fun i =>
      if 1 ≤ i ∧ i ≤ cfg.pipe_count then
        some { value := values i, base_delay := delays i, direction := dirs i,
               modifiers := fun _ => none }
      else none
    history :=
      tokens.map (fun t => .UpdateUser t 0) ++
      (List.range cfg.pipe_count).map (fun i =>
        .UpdatePipe (i + 1)
          { value := values (i + 1), base_delay := delays (i + 1),
            direction := dirs (i + 1), modifiers := fun _ => none }) }

/-- One client request, as dispatched by the HTTP layer in `server.rs`:
collect, inspect-value, or apply-modifier (with its Shuffle oracle). -/
inductive Op
  | collectOp (token : String) (pipe_id : Nat)
  | inspectOp (token : String) (pipe_id : Nat)
  | applyOp (token : String) (pipe_id : Nat) (m : Modifier) (newDelay : Nat)

/-- Run one operation for its state effect. -/
def step (cfg : Config) (s : AppState) : Op → AppState
  | .collectOp t p => (collect cfg s t p).1
  | .inspectOp t p => (pipe_value s t p).1
  | .applyOp t p m d => (apply_modifier cfg s t p m d).1

/-- Run a sequence of operations; `run cfg s ops` is the set of states
reachable from `s` as `ops` ranges over all request sequences. -/
def run (cfg : Config) (s : AppState) : List Op → AppState
  | [] => s
  | op :: ops => run cfg (step cfg s op) ops

/-! ### Derived descriptions of the operations' effects

These definitions are not translations of further source code; they are
compact descriptions of what the functions above compute, proved equal
to them below and used to state the claims. -/

/-- Effect of `Pipe::use_modifier` on one map entry: decrement,
removing the entry at zero. -/
def consumeEntry : Option Nat → Option Nat
  | none => none
  | some n => if n - 1 = 0 then none else some (n - 1)

/-- The pipe after the Slow-consumption phase of `App::collect`. -/
def afterSlow (p : Pipe) : Pipe :=
  { p with modifiers := fun k =>
      if k = .slow then consumeEntry (p.modifiers .slow) else p.modifiers k }

/-- The wait `App::collect` sleeps for: the base delay, doubled when a
Slow modifier is present. -/
def collectDelay (p : Pipe) : Nat :=
  if (p.modifiers .slow).isSome then p.base_delay * 2 else p.base_delay

/-- The score a successful `App::collect` awards: the pipe's value,
doubled if Double is present, then overridden by the configured
`min_value` if Min is present. -/
def collectAward (cfg : Config) (p : Pipe) : Score :=
  if (p.modifiers .min).isSome then cfg.min_value
  else if (p.modifiers .double).isSome then p.value * 2 else p.value

/-- The pipe a successful `App::collect` leaves behind: Slow, Double
and Min each consumed once (where present) and the value advanced. -/
def afterCollect (cfg : Config) (p : Pipe) : Pipe :=
  { value := wrapStep cfg p.value p.direction
    base_delay := p.base_delay
    direction := p.direction
    modifiers := fun k =>
      match k with
      | .slow => consumeEntry (p.modifiers .slow)
      | .double => consumeEntry (p.modifiers .double)
      | .min => consumeEntry (p.modifiers .min)
      | .shuffle => p.modifiers .shuffle
      | .reverse => p.modifiers .reverse }

/-! ### Projection lemmas -/

theorem use_modifier_snd (p : Pipe) (m : Modifier) :
    (p.use_modifier m).2 = (p.modifiers m).isSome := by
  unfold Pipe.use_modifier
  cases p.modifiers m with
  | none => rfl
  | some n => by_cases hn : n - 1 = 0 <;> simp [hn]

theorem use_modifier_modifiers (p : Pipe) (m : Modifier) :
    ((p.use_modifier m).1).modifiers =
      fun k => if k = m then consumeEntry (p.modifiers m) else p.modifiers k := by
  unfold Pipe.use_modifier
  cases h : p.modifiers m with
  | none =>
    funext k
    by_cases hk : k = m <;> simp [consumeEntry, hk, h]
  | some n =>
    by_cases hn : n - 1 = 0 <;> simp [consumeEntry, hn]

theorem use_modifier_value (p : Pipe) (m : Modifier) :
    ((p.use_modifier m).1).value = p.value := by
  unfold Pipe.use_modifier
  cases p.modifiers m with
  | none => rfl
  | some n => by_cases hn : n - 1 = 0 <;> simp [hn]

theorem use_modifier_base_delay (p : Pipe) (m : Modifier) :
    ((p.use_modifier m).1).base_delay = p.base_delay := by
  unfold Pipe.use_modifier
  cases p.modifiers m with
  | none => rfl
  | some n => by_cases hn : n - 1 = 0 <;> simp [hn]

theorem use_modifier_direction (p : Pipe) (m : Modifier) :
    ((p.use_modifier m).1).direction = p.direction := by
  unfold Pipe.use_modifier
  cases p.modifiers m with
  | none => rfl
  | some n => by_cases hn : n - 1 = 0 <;> simp [hn]

theorem consumeEntry_pos (o : Option Nat) (n : Nat)
    (h : consumeEntry o = some n) : 0 < n := by
  unfold consumeEntry at h
  cases o with
  | none => exact absurd h (by simp)
  | some k =>
    by_cases hk : k - 1 = 0 <;> simp [hk] at h
    omega

/-- On a pipe all of whose modifier entries carry positive use-counts,
none of the three `use_modifier` calls a collect performs — Slow on the
stored pipe, then Double, then Min on the successively consumed pipe —
hits the source's `assert_ne!(*uses_left, 0)`: the Rust collect cannot
abort, so the model's successful path is exactly the code's. -/
theorem collect_no_panic (pipe : Pipe)
    (hpos : ∀ k n, pipe.modifiers k = some n → 0 < n) :
    ¬ pipe.use_modifier_panics Modifier.slow ∧
    ¬ (pipe.use_modifier Modifier.slow).1.use_modifier_panics Modifier.double ∧
    ¬ ((pipe.use_modifier Modifier.slow).1.use_modifier
        Modifier.double).1.use_modifier_panics Modifier.min := by
  have hA : (pipe.use_modifier Modifier.slow).1.modifiers Modifier.double =
      pipe.modifiers Modifier.double := by
    rw [use_modifier_modifiers]
    simp
  have hAmin : (pipe.use_modifier Modifier.slow).1.modifiers Modifier.min =
      pipe.modifiers Modifier.min := by
    rw [use_modifier_modifiers]
    simp
  have hB : ((pipe.use_modifier Modifier.slow).1.use_modifier
        Modifier.double).1.modifiers Modifier.min = pipe.modifiers Modifier.min := by
    rw [use_modifier_modifiers]
    simp [hAmin]
  unfold Pipe.use_modifier_panics
  refine ⟨fun h => Nat.lt_irrefl 0 (hpos _ 0 h), fun h => ?_, fun h => ?_⟩
  · rw [hA] at h
    exact Nat.lt_irrefl 0 (hpos _ 0 h)
  · rw [hB] at h
    exact Nat.lt_irrefl 0 (hpos _ 0 h)

/-! ### Path characterizations of `try_lock_user` -/

theorem try_lock_ok (s : AppState) (token : String) (sc : Score)
    (hu : s.users token = some sc) (hl : s.locked token = false) :
    s.try_lock_user token =
      ({ s with locked := fun t => if t = token then true else s.locked t }, .ok sc) := by
  simp [AppState.try_lock_user, hu, hl]

theorem try_lock_busy (s : AppState) (token : String) (sc : Score)
    (hu : s.users token = some sc) (hl : s.locked token = true) :
    s.try_lock_user token = (s, .error .UserBusy) := by
  simp [AppState.try_lock_user, hu, hl]

theorem try_lock_unknown (s : AppState) (token : String)
    (hu : s.users token = none) (ha : s.allow_unknown_users = false) :
    s.try_lock_user token = (s, .error .UserNotFound) := by
  simp [AppState.try_lock_user, hu, ha]

theorem try_lock_new (s : AppState) (token : String)
    (hu : s.users token = none) (ha : s.allow_unknown_users = true) :
    s.try_lock_user token =
      ({ s with
          users := fun t => if t = token then some 0 else s.users t,
          locked := fun t => if t = token then true else s.locked t }, .ok 0) := by
  simp [AppState.try_lock_user, hu, ha]

/-! ### Path characterizations of the three operations -/

theorem collect_body_ok (cfg : Config) (s1 : AppState) (token : String) (pipe_id : Nat)
    (pipe : Pipe) (sc : Score) (hp : s1.pipes pipe_id = some pipe) :
    collect_body cfg s1 token pipe_id sc =
      ({ allow_unknown_users := s1.allow_unknown_users
         users := fun t => if t = token then some (sc + collectAward cfg pipe) else s1.users t
         locked := fun t => if t = token then false else s1.locked t
         pipes := fun i => if i = pipe_id then some (afterCollect cfg pipe) else s1.pipes i
         history := s1.history ++
           [.UpdatePipe pipe_id (afterSlow pipe),
            .CollectStart token pipe_id (collectDelay pipe),
            .CollectEnd token,
            .UpdatePipe pipe_id (afterCollect cfg pipe),
            .UpdateUser token (sc + collectAward cfg pipe)] },
       .ok (collectAward cfg pipe)) := by
  unfold collect_body
  simp only [AppState.logMsg, AppState.setPipe, AppState.setUser, AppState.unlockUser, hp]
  have hmodsA := use_modifier_modifiers pipe .slow
  have hvalA := use_modifier_value pipe .slow
  have hdelA := use_modifier_base_delay pipe .slow
  have hdirA := use_modifier_direction pipe .slow
  set pipeA := (pipe.use_modifier .slow).1 with hA
  have hmodsB := use_modifier_modifiers pipeA .double
  have hvalB := use_modifier_value pipeA .double
  have hdelB := use_modifier_base_delay pipeA .double
  have hdirB := use_modifier_direction pipeA .double
  set pipeB := (pipeA.use_modifier .double).1 with hB
  have hmodsC := use_modifier_modifiers pipeB .min
  have hvalC := use_modifier_value pipeB .min
  have hdelC := use_modifier_base_delay pipeB .min
  have hdirC := use_modifier_direction pipeB .min
  set pipeC := (pipeB.use_modifier .min).1 with hC
  have hAdouble : pipeA.modifiers .double = pipe.modifiers .double := by
    rw [hmodsA]; simp
  have hAmin : pipeA.modifiers .min = pipe.modifiers .min := by
    rw [hmodsA]; simp
  have hBmin : pipeB.modifiers .min = pipe.modifiers .min := by
    rw [hmodsB]; simp [hAmin]
  have hsndA : (pipe.use_modifier .slow).2 = (pipe.modifiers .slow).isSome :=
    use_modifier_snd pipe .slow
  have hsndB : (pipeA.use_modifier .double).2 = (pipe.modifiers .double).isSome := by
    rw [use_modifier_snd, hAdouble]
  have hsndC : (pipeB.use_modifier .min).2 = (pipe.modifiers .min).isSome := by
    rw [use_modifier_snd, hBmin]
  have hscore :
      (if (pipeB.use_modifier .min).2 then cfg.min_value
       else if (pipeA.use_modifier .double).2 then pipeA.value * 2 else pipeA.value) =
      collectAward cfg pipe := by
    rw [hsndB, hsndC, hvalA, collectAward]
  have hdelay :
      (if (pipe.use_modifier .slow).2 then pipe.base_delay * 2 else pipe.base_delay) =
      collectDelay pipe := by
    rw [hsndA, collectDelay]
  have hafterSlow : pipeA = afterSlow pipe := by
    refine Pipe.ext hvalA hdelA hdirA ?_
    rw [hmodsA]; rfl
  have hafterCollect :
      { pipeC with
          value := wrapStep cfg pipeC.value pipeC.direction } = afterCollect cfg pipe := by
    refine Pipe.ext ?_ ?_ ?_ ?_
    · simp only [hvalC, hvalB, hvalA, hdirC, hdirB, hdirA, afterCollect]
    · simp only [hdelC, hdelB, hdelA, afterCollect]
    · simp only [hdirC, hdirB, hdirA, afterCollect]
    · funext k
      rw [hmodsC, hmodsB, hmodsA]
      cases k <;> simp [afterCollect, consumeEntry]
  rw [hscore, hdelay, hafterCollect, hafterSlow]
  refine Prod.ext ?_ rfl
  refine AppState.ext rfl rfl rfl ?_ (by simp)
  funext i
  by_cases hi : i = pipe_id <;> simp [hi]

theorem collect_busy (cfg : Config) (s : AppState) (token : String) (pipe_id : Nat)
    (sc : Score) (hu : s.users token = some sc) (hl : s.locked token = true) :
    collect cfg s token pipe_id = (s, .error .UserBusy) := by
  unfold collect
  rw [try_lock_busy s token sc hu hl]

theorem collect_unknown (cfg : Config) (s : AppState) (token : String) (pipe_id : Nat)
    (hu : s.users token = none) (ha : s.allow_unknown_users = false) :
    collect cfg s token pipe_id = (s, .error .UserNotFound) := by
  unfold collect
  rw [try_lock_unknown s token hu ha]

theorem collect_no_pipe (cfg : Config) (s : AppState) (token : String) (pipe_id : Nat)
    (sc : Score) (hu : s.users token = some sc) (hl : s.locked token = false)
    (hp : s.pipes pipe_id = none) :
    collect cfg s token pipe_id = (s, .error .PipeNotFound) := by
  unfold collect
  rw [try_lock_ok s token sc hu hl]
  simp only [collect_body, AppState.unlockUser, hp]
  refine Prod.ext ?_ rfl
  refine AppState.ext rfl rfl ?_ rfl rfl
  funext t
  by_cases ht : t = token <;> simp [ht, hl]

theorem collect_new_no_pipe (cfg : Config) (s : AppState) (token : String) (pipe_id : Nat)
    (hu : s.users token = none) (ha : s.allow_unknown_users = true)
    (hp : s.pipes pipe_id = none) :
    collect cfg s token pipe_id =
      ({ s with
          users := fun t => if t = token then some 0 else s.users t,
          locked := fun t => if t = token then false else s.locked t },
       .error .PipeNotFound) := by
  unfold collect
  rw [try_lock_new s token hu ha]
  simp only [collect_body, AppState.unlockUser, hp]
  refine Prod.ext ?_ rfl
  refine AppState.ext rfl rfl ?_ rfl rfl
  funext t
  by_cases ht : t = token <;> simp [ht]

theorem pipe_value_busy (s : AppState) (token : String) (pipe_id : Nat)
    (sc : Score) (hu : s.users token = some sc) (hl : s.locked token = true) :
    pipe_value s token pipe_id = (s, .error .UserBusy) := by
  unfold pipe_value
  rw [try_lock_busy s token sc hu hl]

theorem pipe_value_unknown (s : AppState) (token : String) (pipe_id : Nat)
    (hu : s.users token = none) (ha : s.allow_unknown_users = false) :
    pipe_value s token pipe_id = (s, .error .UserNotFound) := by
  unfold pipe_value
  rw [try_lock_unknown s token hu ha]

theorem pipe_value_ok (s : AppState) (token : String) (pipe_id : Nat)
    (pipe : Pipe) (sc : Score)
    (hu : s.users token = some sc) (hl : s.locked token = false)
    (hp : s.pipes pipe_id = some pipe) :
    pipe_value s token pipe_id = (s, .ok pipe.value) := by
  unfold pipe_value
  rw [try_lock_ok s token sc hu hl]
  simp only [AppState.unlockUser, hp]
  refine Prod.ext ?_ rfl
  refine AppState.ext rfl rfl ?_ rfl rfl
  funext t
  by_cases ht : t = token <;> simp [ht, hl]

theorem pipe_value_new_no_pipe (s : AppState) (token : String) (pipe_id : Nat)
    (hu : s.users token = none) (ha : s.allow_unknown_users = true)
    (hp : s.pipes pipe_id = none) :
    pipe_value s token pipe_id =
      ({ s with
          users := fun t => if t = token then some 0 else s.users t,
          locked := fun t => if t = token then false else s.locked t },
       .error .PipeNotFound) := by
  unfold pipe_value
  rw [try_lock_new s token hu ha]
  simp only [AppState.unlockUser, hp]
  refine Prod.ext ?_ rfl
  refine AppState.ext rfl rfl ?_ rfl rfl
  funext t
  by_cases ht : t = token <;> simp [ht]

theorem apply_modifier_busy (cfg : Config) (s : AppState) (token : String) (pipe_id : Nat)
    (m : Modifier) (d : Nat) (sc : Score)
    (hu : s.users token = some sc) (hl : s.locked token = true) :
    apply_modifier cfg s token pipe_id m d = (s, .error .UserBusy) := by
  unfold apply_modifier
  rw [try_lock_busy s token sc hu hl]

theorem apply_modifier_unknown (cfg : Config) (s : AppState) (token : String) (pipe_id : Nat)
    (m : Modifier) (d : Nat)
    (hu : s.users token = none) (ha : s.allow_unknown_users = false) :
    apply_modifier cfg s token pipe_id m d = (s, .error .UserNotFound) := by
  unfold apply_modifier
  rw [try_lock_unknown s token hu ha]

theorem apply_modifier_insufficient (cfg : Config) (s : AppState) (token : String)
    (pipe_id : Nat) (m : Modifier) (d : Nat) (pipe : Pipe) (sc : Score)
    (hu : s.users token = some sc) (hl : s.locked token = false)
    (hp : s.pipes pipe_id = some pipe) (hcost : sc < cfg.modifier_cost m) :
    apply_modifier cfg s token pipe_id m d = (s, .error .NotEnoughScore) := by
  unfold apply_modifier
  rw [try_lock_ok s token sc hu hl]
  simp only [apply_modifier_body, AppState.unlockUser, hp, hcost, if_true]
  refine Prod.ext ?_ rfl
  refine AppState.ext rfl rfl ?_ rfl rfl
  funext t
  by_cases ht : t = token <;> simp [ht, hl]

theorem apply_modifier_already (cfg : Config) (s : AppState) (token : String)
    (pipe_id : Nat) (m : Modifier) (d : Nat) (pipe : Pipe) (sc : Score)
    (hu : s.users token = some sc) (hl : s.locked token = false)
    (hp : s.pipes pipe_id = some pipe) (hcost : ¬ sc < cfg.modifier_cost m)
    (hm : m = .slow ∨ m = .double ∨ m = .min)
    (hpm : (pipe.modifiers m).isSome) :
    apply_modifier cfg s token pipe_id m d = (s, .error .ModifierAlreadyApplied) := by
  unfold apply_modifier
  rw [try_lock_ok s token sc hu hl]
  simp only [apply_modifier_body, AppState.unlockUser, hp, hcost, if_false]
  rcases hm with rfl | rfl | rfl <;>
  · simp only [hpm, if_true]
    refine Prod.ext ?_ rfl
    refine AppState.ext rfl rfl ?_ rfl rfl
    funext t
    by_cases ht : t = token <;> simp [ht, hl]

theorem apply_modifier_ok_stacking (cfg : Config) (s : AppState) (token : String)
    (pipe_id : Nat) (m : Modifier) (d : Nat) (pipe : Pipe) (sc : Score)
    (hu : s.users token = some sc) (hl : s.locked token = false)
    (hp : s.pipes pipe_id = some pipe) (hcost : ¬ sc < cfg.modifier_cost m)
    (hm : m = .slow ∨ m = .double ∨ m = .min)
    (hpm : pipe.modifiers m = none) :
    apply_modifier cfg s token pipe_id m d =
      ({ allow_unknown_users := s.allow_unknown_users
         users := fun t => if t = token then some (sc - cfg.modifier_cost m) else s.users t
         locked := fun t => if t = token then false else s.locked t
         pipes := fun i => if i = pipe_id then
             some { pipe with modifiers := fun k =>
                      if k = m then some (cfg.modifier_uses m) else pipe.modifiers k }
           else s.pipes i
         history := s.history ++
           [.UpdateUser token (sc - cfg.modifier_cost m),
            .UpdatePipe pipe_id
              { pipe with modifiers := fun k =>
                  if k = m then some (cfg.modifier_uses m) else pipe.modifiers k }] },
       .ok ()) := by
  unfold apply_modifier
  rw [try_lock_ok s token sc hu hl]
  simp only [apply_modifier_body, AppState.unlockUser, AppState.setUser, AppState.setPipe,
    AppState.logMsg, hp, hcost, if_false]
  rcases hm with rfl | rfl | rfl <;>
  · simp only [hpm, Option.isSome_none, Bool.false_eq_true, if_false]
    refine Prod.ext ?_ rfl
    refine AppState.ext rfl rfl ?_ rfl (by simp)
    funext t
    by_cases ht : t = token <;> simp [ht, hl]

theorem apply_modifier_ok_shuffle (cfg : Config) (s : AppState) (token : String)
    (pipe_id : Nat) (d : Nat) (pipe : Pipe) (sc : Score)
    (hu : s.users token = some sc) (hl : s.locked token = false)
    (hp : s.pipes pipe_id = some pipe) (hcost : ¬ sc < cfg.shuffle_cost) :
    apply_modifier cfg s token pipe_id .shuffle d =
      ({ allow_unknown_users := s.allow_unknown_users
         users := fun t => if t = token then some (sc - cfg.shuffle_cost) else s.users t
         locked := fun t => if t = token then false else s.locked t
         pipes := fun i => if i = pipe_id then some { pipe with base_delay := d }
           else s.pipes i
         history := s.history ++
           [.UpdateUser token (sc - cfg.shuffle_cost),
            .UpdatePipe pipe_id { pipe with base_delay := d }] },
       .ok ()) := by
  unfold apply_modifier
  rw [try_lock_ok s token sc hu hl]
  simp only [apply_modifier_body, AppState.unlockUser, AppState.setUser, AppState.setPipe,
    AppState.logMsg, hp, Config.modifier_cost, hcost, if_false]
  refine Prod.ext ?_ rfl
  refine AppState.ext rfl rfl ?_ rfl (by simp)
  funext t
  by_cases ht : t = token <;> simp [ht, hl]

theorem apply_modifier_ok_reverse (cfg : Config) (s : AppState) (token : String)
    (pipe_id : Nat) (d : Nat) (pipe : Pipe) (sc : Score)
    (hu : s.users token = some sc) (hl : s.locked token = false)
    (hp : s.pipes pipe_id = some pipe) (hcost : ¬ sc < cfg.reverse_cost) :
    apply_modifier cfg s token pipe_id .reverse d =
      ({ allow_unknown_users := s.allow_unknown_users
         users := fun t => if t = token then some (sc - cfg.reverse_cost) else s.users t
         locked := fun t => if t = token then false else s.locked t
         pipes := fun i => if i = pipe_id then
             some { pipe with direction := pipe.direction.inverse }
           else s.pipes i
         history := s.history ++
           [.UpdateUser token (sc - cfg.reverse_cost),
            .UpdatePipe pipe_id { pipe with direction := pipe.direction.inverse }] },
       .ok ()) := by
  unfold apply_modifier
  rw [try_lock_ok s token sc hu hl]
  simp only [apply_modifier_body, AppState.unlockUser, AppState.setUser, AppState.setPipe,
    AppState.logMsg, hp, Config.modifier_cost, hcost, if_false]
  refine Prod.ext ?_ rfl
  refine AppState.ext rfl rfl ?_ rfl (by simp)
  funext t
  by_cases ht : t = token <;> simp [ht, hl]

theorem apply_modifier_new_no_pipe (cfg : Config) (s : AppState) (token : String)
    (pipe_id : Nat) (m : Modifier) (d : Nat)
    (hu : s.users token = none) (ha : s.allow_unknown_users = true)
    (hp : s.pipes pipe_id = none) :
    apply_modifier cfg s token pipe_id m d =
      ({ s with
          users := fun t => if t = token then some 0 else s.users t,
          locked := fun t => if t = token then false else s.locked t },
       .error .PipeNotFound) := by
  unfold apply_modifier
  rw [try_lock_new s token hu ha]
  simp only [apply_modifier_body, AppState.unlockUser, hp]
  refine Prod.ext ?_ rfl
  refine AppState.ext rfl rfl ?_ rfl rfl
  funext t
  by_cases ht : t = token <;> simp [ht]

theorem collect_body_no_pipe (cfg : Config) (s1 : AppState) (token : String)
    (pipe_id : Nat) (sc : Score) (hp : s1.pipes pipe_id = none) :
    collect_body cfg s1 token pipe_id sc = (s1.unlockUser token, .error .PipeNotFound) := by
  unfold collect_body
  rw [hp]

theorem apply_body_no_pipe (cfg : Config) (s1 : AppState) (token : String)
    (pipe_id : Nat) (m : Modifier) (d : Nat) (sc : Score) (hp : s1.pipes pipe_id = none) :
    apply_modifier_body cfg s1 token pipe_id m d sc =
      (s1.unlockUser token, .error .PipeNotFound) := by
  unfold apply_modifier_body
  rw [hp]

theorem collect_ok (cfg : Config) (s : AppState) (token : String) (pipe_id : Nat)
    (pipe : Pipe) (sc : Score)
    (hu : s.users token = some sc) (hl : s.locked token = false)
    (hp : s.pipes pipe_id = some pipe) :
    collect cfg s token pipe_id =
      ({ allow_unknown_users := s.allow_unknown_users
         users := fun t => if t = token then some (sc + collectAward cfg pipe) else s.users t
         locked := fun t => if t = token then false else s.locked t
         pipes := fun i => if i = pipe_id then some (afterCollect cfg pipe) else s.pipes i
         history := s.history ++
           [.UpdatePipe pipe_id (afterSlow pipe),
            .CollectStart token pipe_id (collectDelay pipe),
            .CollectEnd token,
            .UpdatePipe pipe_id (afterCollect cfg pipe),
            .UpdateUser token (sc + collectAward cfg pipe)] },
       .ok (collectAward cfg pipe)) := by
  unfold collect
  rw [try_lock_ok s token sc hu hl]
  dsimp only
  rw [collect_body_ok cfg
    { s with locked := fun t => if t = token then true else s.locked t }
    token pipe_id pipe sc hp]
  refine Prod.ext ?_ rfl
  refine AppState.ext rfl rfl ?_ rfl rfl
  funext t
  by_cases ht : t = token <;> simp [ht]

theorem collect_new_ok (cfg : Config) (s : AppState) (token : String) (pipe_id : Nat)
    (pipe : Pipe)
    (hu : s.users token = none) (ha : s.allow_unknown_users = true)
    (hp : s.pipes pipe_id = some pipe) :
    collect cfg s token pipe_id =
      ({ allow_unknown_users := s.allow_unknown_users
         users := fun t => if t = token then some (collectAward cfg pipe) else s.users t
         locked := fun t => if t = token then false else s.locked t
         pipes := fun i => if i = pipe_id then some (afterCollect cfg pipe) else s.pipes i
         history := s.history ++
           [.UpdatePipe pipe_id (afterSlow pipe),
            .CollectStart token pipe_id (collectDelay pipe),
            .CollectEnd token,
            .UpdatePipe pipe_id (afterCollect cfg pipe),
            .UpdateUser token (collectAward cfg pipe)] },
       .ok (collectAward cfg pipe)) := by
  unfold collect
  rw [try_lock_new s token hu ha]
  dsimp only
  rw [collect_body_ok cfg
    { s with
        users := fun t => if t = token then some 0 else s.users t,
        locked := fun t => if t = token then true else s.locked t }
    token pipe_id pipe 0 hp]
  refine Prod.ext ?_ (by simp)
  refine AppState.ext rfl ?_ ?_ rfl (by simp)
  · funext t
    by_cases ht : t = token <;> simp [ht]
  · funext t
    by_cases ht : t = token <;> simp [ht]

/-! ### Invariants over reachable states -/

/-- Every stored pipe value lies inside `[min_value, max_value]`. -/
def ValuesInRange (cfg : Config) (s : AppState) : Prop :=
  ∀ i p, s.pipes i = some p → cfg.min_value ≤ p.value ∧ p.value ≤ cfg.max_value

/-- Every stored user score is non-negative. -/
def ScoresNonneg (s : AppState) : Prop :=
  ∀ t sc, s.users t = some sc → 0 ≤ sc

/-- Every stored modifier entry has a strictly positive use-count. -/
def ModsPositive (s : AppState) : Prop :=
  ∀ i p m n, s.pipes i = some p → p.modifiers m = some n → 0 < n

/-- Under a closed roster: unknown users stay off the user map. -/
def ClosedRoster (roster : List String) (s : AppState) : Prop :=
  s.allow_unknown_users = false ∧ ∀ t, t ∉ roster → s.users t = none

/-- A config whose stacking modifiers are installed with at least one
use. -/
def UsesPositive (cfg : Config) : Prop :=
  0 < cfg.slow_uses ∧ 0 < cfg.double_uses ∧ 0 < cfg.min_uses

theorem wrapStep_mem (cfg : Config) (v : Score) (d : PipeDirection)
    (hcfg : cfg.min_value ≤ cfg.max_value)
    (h1 : cfg.min_value ≤ v) (h2 : v ≤ cfg.max_value) :
    cfg.min_value ≤ wrapStep cfg v d ∧ wrapStep cfg v d ≤ cfg.max_value := by
  unfold wrapStep
  cases d <;> dsimp only <;> split_ifs <;> constructor <;> linarith

theorem collectAward_nonneg (cfg : Config) (p : Pipe)
    (hmin : 0 ≤ cfg.min_value) (hv : cfg.min_value ≤ p.value) :
    0 ≤ collectAward cfg p := by
  unfold collectAward
  split_ifs <;> linarith

theorem try_lock_fst_pipes (s : AppState) (token : String) :
    (s.try_lock_user token).1.pipes = s.pipes := by
  unfold AppState.try_lock_user
  rcases h : s.users token with _ | sc <;> dsimp only <;> split <;> rfl

theorem try_lock_fst_allow (s : AppState) (token : String) :
    (s.try_lock_user token).1.allow_unknown_users = s.allow_unknown_users := by
  unfold AppState.try_lock_user
  rcases h : s.users token with _ | sc <;> dsimp only <;> split <;> rfl

theorem try_lock_fst_users (s : AppState) (token : String) (t : String) :
    (s.try_lock_user token).1.users t = s.users t ∨
      (s.try_lock_user token).1.users t = some 0 := by
  unfold AppState.try_lock_user
  rcases h : s.users token with _ | sc <;> dsimp only
  · split
    · by_cases ht : t = token <;> simp [ht]
    · left; rfl
  · split <;> left <;> rfl

theorem try_lock_fst_users_closed (s : AppState) (token : String)
    (ha : s.allow_unknown_users = false) :
    (s.try_lock_user token).1.users = s.users := by
  unfold AppState.try_lock_user
  rcases h : s.users token with _ | sc <;> dsimp only
  · rw [ha]; rfl
  · split <;> rfl

theorem try_lock_snd_ok (s : AppState) (token : String) (sc : Score)
    (h : (s.try_lock_user token).2 = .ok sc) :
    s.users token = some sc ∨ sc = 0 := by
  unfold AppState.try_lock_user at h
  rcases hu : s.users token with _ | sc' <;> rw [hu] at h <;> dsimp only at h
  · split at h
    · right
      injection h with h
      exact h.symm
    · exact absurd h (by simp)
  · split at h
    · exact absurd h (by simp)
    · left
      injection h with h
      rw [h]

theorem collect_pres_values (cfg : Config) (s : AppState) (token : String) (pipe_id : Nat)
    (hcfg : cfg.min_value ≤ cfg.max_value)
    (hinv : ValuesInRange cfg s) : ValuesInRange cfg (collect cfg s token pipe_id).1 := by
  unfold collect
  rcases h : s.try_lock_user token with ⟨s1, r⟩
  have hpipes1 : s1.pipes = s.pipes := by
    have h2 := try_lock_fst_pipes s token
    rw [h] at h2
    exact h2
  have hinv1 : ValuesInRange cfg s1 := by
    intro i p hip
    exact hinv i p (hpipes1 ▸ hip)
  cases r with
  | error e => exact hinv1
  | ok sc =>
    dsimp only
    cases hp : s1.pipes pipe_id with
    | none =>
      rw [collect_body_no_pipe cfg s1 token pipe_id sc hp]
      exact fun i p hip => hinv1 i p hip
    | some pipe =>
      rw [collect_body_ok cfg s1 token pipe_id pipe sc hp]
      intro i p hip
      dsimp only at hip
      by_cases hi : i = pipe_id
      · subst hi
        rw [if_pos rfl, Option.some_inj] at hip
        obtain ⟨hv1, hv2⟩ := hinv1 i pipe hp
        rw [← hip]
        exact wrapStep_mem cfg pipe.value pipe.direction hcfg hv1 hv2
      · rw [if_neg hi] at hip
        exact hinv1 i p hip

theorem collect_pres_nonneg (cfg : Config) (s : AppState) (token : String) (pipe_id : Nat)
    (hmin : 0 ≤ cfg.min_value)
    (hinvV : ValuesInRange cfg s) (hinvS : ScoresNonneg s) :
    ScoresNonneg (collect cfg s token pipe_id).1 := by
  unfold collect
  rcases h : s.try_lock_user token with ⟨s1, r⟩
  have hpipes1 : s1.pipes = s.pipes := by
    have h2 := try_lock_fst_pipes s token
    rw [h] at h2
    exact h2
  have hS1 : ScoresNonneg s1 := by
    intro t sc hts
    rcases try_lock_fst_users s token t with h2 | h2 <;> rw [h] at h2
    · exact hinvS t sc (h2 ▸ hts)
    · rw [hts] at h2
      injection h2 with h2
      rw [← h2]
  cases r with
  | error e => exact hS1
  | ok sc =>
    dsimp only
    have hsc : 0 ≤ sc := by
      have h2 := try_lock_snd_ok s token sc (by rw [h])
      rcases h2 with h2 | h2
      · exact hinvS token sc h2
      · rw [h2]
    cases hp : s1.pipes pipe_id with
    | none =>
      rw [collect_body_no_pipe cfg s1 token pipe_id sc hp]
      exact fun t x hts => hS1 t x hts
    | some pipe =>
      rw [collect_body_ok cfg s1 token pipe_id pipe sc hp]
      intro t x hts
      dsimp only at hts
      by_cases ht : t = token
      · rw [if_pos ht, Option.some_inj] at hts
        have hv1 := (hinvV pipe_id pipe (hpipes1 ▸ hp)).1
        have haw := collectAward_nonneg cfg pipe hmin hv1
        rw [← hts]
        linarith
      · rw [if_neg ht] at hts
        exact hS1 t x hts

theorem collect_pres_mods (cfg : Config) (s : AppState) (token : String) (pipe_id : Nat)
    (hinv : ModsPositive s) : ModsPositive (collect cfg s token pipe_id).1 := by
  unfold collect
  rcases h : s.try_lock_user token with ⟨s1, r⟩
  have hpipes1 : s1.pipes = s.pipes := by
    have h2 := try_lock_fst_pipes s token
    rw [h] at h2
    exact h2
  have hinv1 : ModsPositive s1 := by
    intro i p m n hip hmn
    exact hinv i p m n (hpipes1 ▸ hip) hmn
  cases r with
  | error e => exact hinv1
  | ok sc =>
    dsimp only
    cases hp : s1.pipes pipe_id with
    | none =>
      rw [collect_body_no_pipe cfg s1 token pipe_id sc hp]
      exact fun i p m n hip hmn => hinv1 i p m n hip hmn
    | some pipe =>
      rw [collect_body_ok cfg s1 token pipe_id pipe sc hp]
      intro i p m n hip hmn
      dsimp only at hip
      by_cases hi : i = pipe_id
      · subst hi
        rw [if_pos rfl, Option.some_inj] at hip
        rw [← hip] at hmn
        cases m <;> dsimp only [afterCollect] at hmn
        · exact consumeEntry_pos _ n hmn
        · exact consumeEntry_pos _ n hmn
        · exact consumeEntry_pos _ n hmn
        · exact hinv1 i pipe .shuffle n hp hmn
        · exact hinv1 i pipe .reverse n hp hmn
      · rw [if_neg hi] at hip
        exact hinv1 i p m n hip hmn

theorem apply_body_insufficient (cfg : Config) (s1 : AppState) (token : String)
    (pipe_id : Nat) (m : Modifier) (d : Nat) (sc : Score) (pipe : Pipe)
    (hp : s1.pipes pipe_id = some pipe) (hcost : sc < cfg.modifier_cost m) :
    apply_modifier_body cfg s1 token pipe_id m d sc =
      (s1.unlockUser token, .error .NotEnoughScore) := by
  unfold apply_modifier_body
  rw [hp]
  dsimp only
  rw [if_pos hcost]

theorem apply_body_already (cfg : Config) (s1 : AppState) (token : String)
    (pipe_id : Nat) (m : Modifier) (d : Nat) (sc : Score) (pipe : Pipe)
    (hp : s1.pipes pipe_id = some pipe) (hcost : ¬ sc < cfg.modifier_cost m)
    (hm : m = .slow ∨ m = .double ∨ m = .min)
    (hpm : (pipe.modifiers m).isSome) :
    apply_modifier_body cfg s1 token pipe_id m d sc =
      (s1.unlockUser token, .error .ModifierAlreadyApplied) := by
  unfold apply_modifier_body
  rw [hp]
  dsimp only
  rw [if_neg hcost]
  rcases hm with rfl | rfl | rfl <;> dsimp only <;> rw [if_pos hpm]

theorem apply_body_ok_stacking (cfg : Config) (s1 : AppState) (token : String)
    (pipe_id : Nat) (m : Modifier) (d : Nat) (sc : Score) (pipe : Pipe)
    (hp : s1.pipes pipe_id = some pipe) (hcost : ¬ sc < cfg.modifier_cost m)
    (hm : m = .slow ∨ m = .double ∨ m = .min)
    (hpm : pipe.modifiers m = none) :
    apply_modifier_body cfg s1 token pipe_id m d sc =
      ({ allow_unknown_users := s1.allow_unknown_users
         users := fun t => if t = token then some (sc - cfg.modifier_cost m) else s1.users t
         locked := fun t => if t = token then false else s1.locked t
         pipes := fun i => if i = pipe_id then
             some { pipe with modifiers := fun k =>
                      if k = m then some (cfg.modifier_uses m) else pipe.modifiers k }
           else s1.pipes i
         history := s1.history ++
           [.UpdateUser token (sc - cfg.modifier_cost m),
            .UpdatePipe pipe_id
              { pipe with modifiers := fun k =>
                  if k = m then some (cfg.modifier_uses m) else pipe.modifiers k }] },
       .ok ()) := by
  unfold apply_modifier_body
  rw [hp]
  dsimp only
  rw [if_neg hcost]
  rcases hm with rfl | rfl | rfl <;>
  · dsimp only
    rw [if_neg (by simp [hpm])]
    simp only [AppState.logMsg, AppState.setPipe, AppState.setUser, AppState.unlockUser]
    refine Prod.ext ?_ rfl
    refine AppState.ext rfl rfl rfl rfl (by simp)

theorem apply_body_ok_shuffle (cfg : Config) (s1 : AppState) (token : String)
    (pipe_id : Nat) (d : Nat) (sc : Score) (pipe : Pipe)
    (hp : s1.pipes pipe_id = some pipe) (hcost : ¬ sc < cfg.shuffle_cost) :
    apply_modifier_body cfg s1 token pipe_id .shuffle d sc =
      ({ allow_unknown_users := s1.allow_unknown_users
         users := fun t => if t = token then some (sc - cfg.shuffle_cost) else s1.users t
         locked := fun t => if t = token then false else s1.locked t
         pipes := fun i => if i = pipe_id then some { pipe with base_delay := d }
           else s1.pipes i
         history := s1.history ++
           [.UpdateUser token (sc - cfg.shuffle_cost),
            .UpdatePipe pipe_id { pipe with base_delay := d }] },
       .ok ()) := by
  unfold apply_modifier_body
  rw [hp]
  dsimp only
  rw [if_neg (show ¬ sc < cfg.modifier_cost Modifier.shuffle from hcost)]
  simp only [AppState.logMsg, AppState.setPipe, AppState.setUser, AppState.unlockUser]
  refine Prod.ext ?_ rfl
  refine AppState.ext rfl rfl rfl rfl (by simp [Config.modifier_cost])

theorem apply_body_ok_reverse (cfg : Config) (s1 : AppState) (token : String)
    (pipe_id : Nat) (d : Nat) (sc : Score) (pipe : Pipe)
    (hp : s1.pipes pipe_id = some pipe) (hcost : ¬ sc < cfg.reverse_cost) :
    apply_modifier_body cfg s1 token pipe_id .reverse d sc =
      ({ allow_unknown_users := s1.allow_unknown_users
         users := fun t => if t = token then some (sc - cfg.reverse_cost) else s1.users t
         locked := fun t => if t = token then false else s1.locked t
         pipes := fun i => if i = pipe_id then
             some { pipe with direction := pipe.direction.inverse }
           else s1.pipes i
         history := s1.history ++
           [.UpdateUser token (sc - cfg.reverse_cost),
            .UpdatePipe pipe_id { pipe with direction := pipe.direction.inverse }] },
       .ok ()) := by
  unfold apply_modifier_body
  rw [hp]
  dsimp only
  rw [if_neg (show ¬ sc < cfg.modifier_cost Modifier.reverse from hcost)]
  simp only [AppState.logMsg, AppState.setPipe, AppState.setUser, AppState.unlockUser]
  refine Prod.ext ?_ rfl
  refine AppState.ext rfl rfl rfl rfl (by simp [Config.modifier_cost])

theorem try_lock_snd_ok_users (s : AppState) (token : String) (sc : Score)
    (ha : s.allow_unknown_users = false)
    (h : (s.try_lock_user token).2 = .ok sc) :
    s.users token = some sc := by
  unfold AppState.try_lock_user at h
  rcases hu : s.users token with _ | sc' <;> rw [hu] at h <;> dsimp only at h
  · rw [ha] at h
    exact absurd h (by simp)
  · split at h
    · exact absurd h (by simp)
    · injection h with h
      rw [h]

/-- All the ways `apply_modifier_body` can change the user and pipe
fields, uniformly over its outcome. -/
theorem apply_body_fst_spec (cfg : Config) (s1 : AppState) (token : String)
    (pipe_id : Nat) (m : Modifier) (d : Nat) (sc : Score) :
    (apply_modifier_body cfg s1 token pipe_id m d sc).1.allow_unknown_users =
      s1.allow_unknown_users ∧
    (∀ t, (apply_modifier_body cfg s1 token pipe_id m d sc).1.users t = s1.users t ∨
      (t = token ∧ ¬ sc < cfg.modifier_cost m ∧
        (apply_modifier_body cfg s1 token pipe_id m d sc).1.users t =
          some (sc - cfg.modifier_cost m))) ∧
    (∀ i, (apply_modifier_body cfg s1 token pipe_id m d sc).1.pipes i = s1.pipes i ∨
      (i = pipe_id ∧ ∃ pipe pipe', s1.pipes pipe_id = some pipe ∧
        (apply_modifier_body cfg s1 token pipe_id m d sc).1.pipes i = some pipe' ∧
        pipe'.value = pipe.value ∧
        ∀ k n, pipe'.modifiers k = some n →
          pipe.modifiers k = some n ∨
            (k = m ∧ (k = .slow ∨ k = .double ∨ k = .min) ∧
              n = cfg.modifier_uses k))) := by
  cases hp : s1.pipes pipe_id with
  | none =>
    rw [apply_body_no_pipe cfg s1 token pipe_id m d sc hp]
    exact ⟨rfl, fun t => Or.inl rfl, fun i => Or.inl rfl⟩
  | some pipe =>
    by_cases hcost : sc < cfg.modifier_cost m
    · rw [apply_body_insufficient cfg s1 token pipe_id m d sc pipe hp hcost]
      exact ⟨rfl, fun t => Or.inl rfl, fun i => Or.inl rfl⟩
    · have hstack_or : (m = .slow ∨ m = .double ∨ m = .min) ∨ m = .shuffle ∨ m = .reverse := by
        cases m <;> simp
      rcases hstack_or with hm | rfl | rfl
      · by_cases hpm : (pipe.modifiers m).isSome
        · rw [apply_body_already cfg s1 token pipe_id m d sc pipe hp hcost hm hpm]
          exact ⟨rfl, fun t => Or.inl rfl, fun i => Or.inl rfl⟩
        · have hpm' : pipe.modifiers m = none := by
            rcases hn : pipe.modifiers m with _ | n
            · rfl
            · rw [hn] at hpm
              exact absurd rfl hpm
          rw [apply_body_ok_stacking cfg s1 token pipe_id m d sc pipe hp hcost hm hpm']
          refine ⟨rfl, ?_, ?_⟩
          · intro t
            by_cases ht : t = token
            · exact Or.inr ⟨ht, hcost, by simp [ht]⟩
            · left
              simp [ht]
          · intro i
            by_cases hi : i = pipe_id
            · subst hi
              right
              refine ⟨rfl, pipe, ?_⟩
              refine ⟨{ pipe with modifiers := fun k =>
                  if k = m then some (cfg.modifier_uses m) else pipe.modifiers k }, ?_⟩
              refine ⟨rfl, by simp, rfl, ?_⟩
              intro k n hk
              dsimp only at hk
              by_cases hkm : k = m
              · rw [if_pos hkm] at hk
                injection hk with hk
                subst hkm
                exact Or.inr ⟨rfl, hm, hk.symm⟩
              · rw [if_neg hkm] at hk
                exact Or.inl hk
            · left
              simp [hi]
      · rw [apply_body_ok_shuffle cfg s1 token pipe_id d sc pipe hp hcost]
        refine ⟨rfl, ?_, ?_⟩
        · intro t
          by_cases ht : t = token
          · exact Or.inr ⟨ht, hcost, by simp [ht, Config.modifier_cost]⟩
          · left
            simp [ht]
        · intro i
          by_cases hi : i = pipe_id
          · subst hi
            right
            refine ⟨rfl, pipe, ?_⟩
            refine ⟨{ pipe with base_delay := d }, ?_⟩
            exact ⟨rfl, by simp, rfl, fun k n hk => Or.inl hk⟩
          · left
            simp [hi]
      · rw [apply_body_ok_reverse cfg s1 token pipe_id d sc pipe hp hcost]
        refine ⟨rfl, ?_, ?_⟩
        · intro t
          by_cases ht : t = token
          · exact Or.inr ⟨ht, hcost, by simp [ht, Config.modifier_cost]⟩
          · left
            simp [ht]
        · intro i
          by_cases hi : i = pipe_id
          · subst hi
            right
            refine ⟨rfl, pipe, ?_⟩
            refine ⟨{ pipe with direction := pipe.direction.inverse }, ?_⟩
            exact ⟨rfl, by simp, rfl, fun k n hk => Or.inl hk⟩
          · left
            simp [hi]

theorem modifier_uses_pos (cfg : Config) (h : UsesPositive cfg) (k : Modifier)
    (hk : k = .slow ∨ k = .double ∨ k = .min) : 0 < cfg.modifier_uses k := by
  rcases hk with rfl | rfl | rfl
  · exact h.1
  · exact h.2.1
  · exact h.2.2

theorem pipe_value_fst_spec (s : AppState) (token : String) (pipe_id : Nat) :
    (pipe_value s token pipe_id).1.pipes = s.pipes ∧
    (pipe_value s token pipe_id).1.allow_unknown_users = s.allow_unknown_users ∧
    (∀ t, (pipe_value s token pipe_id).1.users t = s.users t ∨
      (pipe_value s token pipe_id).1.users t = some 0) := by
  unfold pipe_value
  rcases h : s.try_lock_user token with ⟨s1, r⟩
  have hpipes1 : s1.pipes = s.pipes := by
    have h2 := try_lock_fst_pipes s token
    rw [h] at h2
    exact h2
  have hallow1 : s1.allow_unknown_users = s.allow_unknown_users := by
    have h2 := try_lock_fst_allow s token
    rw [h] at h2
    exact h2
  have husers1 : ∀ t, s1.users t = s.users t ∨ s1.users t = some 0 := by
    intro t
    have h2 := try_lock_fst_users s token t
    rw [h] at h2
    exact h2
  cases r with
  | error e => exact ⟨hpipes1, hallow1, husers1⟩
  | ok sc =>
    dsimp only
    cases hp : s1.pipes pipe_id with
    | none => exact ⟨hpipes1, hallow1, husers1⟩
    | some pipe => exact ⟨hpipes1, hallow1, husers1⟩

theorem pipe_value_fst_users_closed (s : AppState) (token : String) (pipe_id : Nat)
    (ha : s.allow_unknown_users = false) :
    (pipe_value s token pipe_id).1.users = s.users := by
  unfold pipe_value
  rcases h : s.try_lock_user token with ⟨s1, r⟩
  have husers1 : s1.users = s.users := by
    have h2 := try_lock_fst_users_closed s token ha
    rw [h] at h2
    exact h2
  cases r with
  | error e => exact husers1
  | ok sc =>
    dsimp only
    cases hp : s1.pipes pipe_id with
    | none => exact husers1
    | some pipe => exact husers1

theorem apply_pres_values (cfg : Config) (s : AppState) (token : String) (pipe_id : Nat)
    (m : Modifier) (d : Nat)
    (hinv : ValuesInRange cfg s) :
    ValuesInRange cfg (apply_modifier cfg s token pipe_id m d).1 := by
  unfold apply_modifier
  rcases h : s.try_lock_user token with ⟨s1, r⟩
  have hpipes1 : s1.pipes = s.pipes := by
    have h2 := try_lock_fst_pipes s token
    rw [h] at h2
    exact h2
  have hinv1 : ValuesInRange cfg s1 := fun i p hip => hinv i p (hpipes1 ▸ hip)
  cases r with
  | error e => exact hinv1
  | ok sc =>
    dsimp only
    intro i p hip
    rcases (apply_body_fst_spec cfg s1 token pipe_id m d sc).2.2 i with
      h2 | ⟨hi, pipe, pipe2, hpp, hpp2, hval, _⟩
    · rw [h2] at hip
      exact hinv1 i p hip
    · rw [hpp2] at hip
      injection hip with hip
      rw [← hip, hval]
      exact hinv1 pipe_id pipe hpp

theorem apply_pres_nonneg (cfg : Config) (s : AppState) (token : String) (pipe_id : Nat)
    (m : Modifier) (d : Nat)
    (hinvS : ScoresNonneg s) :
    ScoresNonneg (apply_modifier cfg s token pipe_id m d).1 := by
  unfold apply_modifier
  rcases h : s.try_lock_user token with ⟨s1, r⟩
  have hS1 : ScoresNonneg s1 := by
    intro t sc hts
    rcases try_lock_fst_users s token t with h2 | h2 <;> rw [h] at h2
    · exact hinvS t sc (h2 ▸ hts)
    · rw [hts] at h2
      injection h2 with h2
      rw [← h2]
  cases r with
  | error e => exact hS1
  | ok sc =>
    dsimp only
    intro t x hts
    rcases (apply_body_fst_spec cfg s1 token pipe_id m d sc).2.1 t with
      h2 | ⟨ht, hcost, h2⟩
    · rw [h2] at hts
      exact hS1 t x hts
    · rw [h2] at hts
      injection hts with hts
      have hsc : 0 ≤ sc := by
        have h3 := try_lock_snd_ok s token sc (by rw [h])
        rcases h3 with h3 | h3
        · exact hinvS token sc h3
        · rw [h3]
      rw [← hts]
      linarith

theorem apply_pres_mods (cfg : Config) (s : AppState) (token : String) (pipe_id : Nat)
    (m : Modifier) (d : Nat)
    (huses : UsesPositive cfg) (hinv : ModsPositive s) :
    ModsPositive (apply_modifier cfg s token pipe_id m d).1 := by
  unfold apply_modifier
  rcases h : s.try_lock_user token with ⟨s1, r⟩
  have hpipes1 : s1.pipes = s.pipes := by
    have h2 := try_lock_fst_pipes s token
    rw [h] at h2
    exact h2
  have hinv1 : ModsPositive s1 := fun i p k n hip hk => hinv i p k n (hpipes1 ▸ hip) hk
  cases r with
  | error e => exact hinv1
  | ok sc =>
    dsimp only
    intro i p k n hip hk
    rcases (apply_body_fst_spec cfg s1 token pipe_id m d sc).2.2 i with
      h2 | ⟨hi, pipe, pipe2, hpp, hpp2, _, hmods⟩
    · rw [h2] at hip
      exact hinv1 i p k n hip hk
    · rw [hpp2] at hip
      injection hip with hip
      rw [← hip] at hk
      rcases hmods k n hk with h3 | ⟨_, hstack, h3⟩
      · exact hinv1 pipe_id pipe k n hpp h3
      · rw [h3]
        exact modifier_uses_pos cfg huses k hstack

theorem collect_pres_closed (cfg : Config) (s : AppState) (token : String) (pipe_id : Nat)
    (roster : List String) (hinv : ClosedRoster roster s) :
    ClosedRoster roster (collect cfg s token pipe_id).1 := by
  obtain ⟨ha, husers⟩ := hinv
  unfold collect
  rcases h : s.try_lock_user token with ⟨s1, r⟩
  have hallow1 : s1.allow_unknown_users = s.allow_unknown_users := by
    have h2 := try_lock_fst_allow s token
    rw [h] at h2
    exact h2
  have husers1 : s1.users = s.users := by
    have h2 := try_lock_fst_users_closed s token ha
    rw [h] at h2
    exact h2
  cases r with
  | error e => exact ⟨hallow1.trans ha, fun t ht => husers1 ▸ husers t ht⟩
  | ok sc =>
    dsimp only
    have htok : s.users token = some sc :=
      try_lock_snd_ok_users s token sc ha (by rw [h])
    cases hp : s1.pipes pipe_id with
    | none =>
      rw [collect_body_no_pipe cfg s1 token pipe_id sc hp]
      exact ⟨hallow1.trans ha, fun t ht => husers1 ▸ husers t ht⟩
    | some pipe =>
      rw [collect_body_ok cfg s1 token pipe_id pipe sc hp]
      refine ⟨hallow1.trans ha, ?_⟩
      intro t ht
      dsimp only
      by_cases htk : t = token
      · exfalso
        rw [htk] at ht
        rw [husers token ht] at htok
        exact Option.noConfusion htok
      · rw [if_neg htk]
        exact husers1 ▸ husers t ht

theorem apply_pres_closed (cfg : Config) (s : AppState) (token : String) (pipe_id : Nat)
    (m : Modifier) (d : Nat)
    (roster : List String) (hinv : ClosedRoster roster s) :
    ClosedRoster roster (apply_modifier cfg s token pipe_id m d).1 := by
  obtain ⟨ha, husers⟩ := hinv
  unfold apply_modifier
  rcases h : s.try_lock_user token with ⟨s1, r⟩
  have hallow1 : s1.allow_unknown_users = s.allow_unknown_users := by
    have h2 := try_lock_fst_allow s token
    rw [h] at h2
    exact h2
  have husers1 : s1.users = s.users := by
    have h2 := try_lock_fst_users_closed s token ha
    rw [h] at h2
    exact h2
  cases r with
  | error e => exact ⟨hallow1.trans ha, fun t ht => husers1 ▸ husers t ht⟩
  | ok sc =>
    dsimp only
    have htok : s.users token = some sc :=
      try_lock_snd_ok_users s token sc ha (by rw [h])
    refine ⟨?_, ?_⟩
    · rw [(apply_body_fst_spec cfg s1 token pipe_id m d sc).1, hallow1, ha]
    · intro t ht
      rcases (apply_body_fst_spec cfg s1 token pipe_id m d sc).2.1 t with
        h2 | ⟨htk, _, _⟩
      · rw [h2, husers1]
        exact husers t ht
      · exfalso
        rw [htk] at ht
        rw [husers token ht] at htok
        exact Option.noConfusion htok

theorem pipe_value_pres_closed (s : AppState) (token : String) (pipe_id : Nat)
    (roster : List String) (hinv : ClosedRoster roster s) :
    ClosedRoster roster (pipe_value s token pipe_id).1 := by
  obtain ⟨ha, husers⟩ := hinv
  refine ⟨?_, ?_⟩
  · rw [(pipe_value_fst_spec s token pipe_id).2.1, ha]
  · intro t ht
    rw [pipe_value_fst_users_closed s token pipe_id ha]
    exact husers t ht

theorem collect_users_isSome (cfg : Config) (s : AppState) (token : String) (pipe_id : Nat)
    (t : String) (h : (s.users t).isSome) :
    ((collect cfg s token pipe_id).1.users t).isSome := by
  unfold collect
  rcases hl : s.try_lock_user token with ⟨s1, r⟩
  have h1 : (s1.users t).isSome := by
    rcases try_lock_fst_users s token t with h2 | h2 <;> rw [hl] at h2 <;> rw [h2]
    · exact h
    · rfl
  cases r with
  | error e => exact h1
  | ok sc =>
    dsimp only
    cases hp : s1.pipes pipe_id with
    | none =>
      rw [collect_body_no_pipe cfg s1 token pipe_id sc hp]
      exact h1
    | some pipe =>
      rw [collect_body_ok cfg s1 token pipe_id pipe sc hp]
      dsimp only
      by_cases htk : t = token
      · rw [if_pos htk]
        rfl
      · rw [if_neg htk]
        exact h1

theorem apply_users_isSome (cfg : Config) (s : AppState) (token : String) (pipe_id : Nat)
    (m : Modifier) (d : Nat) (t : String) (h : (s.users t).isSome) :
    ((apply_modifier cfg s token pipe_id m d).1.users t).isSome := by
  unfold apply_modifier
  rcases hl : s.try_lock_user token with ⟨s1, r⟩
  have h1 : (s1.users t).isSome := by
    rcases try_lock_fst_users s token t with h2 | h2 <;> rw [hl] at h2 <;> rw [h2]
    · exact h
    · rfl
  cases r with
  | error e => exact h1
  | ok sc =>
    dsimp only
    rcases (apply_body_fst_spec cfg s1 token pipe_id m d sc).2.1 t with h2 | ⟨_, _, h2⟩ <;>
      rw [h2]
    · exact h1
    · rfl

theorem pipe_value_users_isSome (s : AppState) (token : String) (pipe_id : Nat)
    (t : String) (h : (s.users t).isSome) :
    ((pipe_value s token pipe_id).1.users t).isSome := by
  rcases (pipe_value_fst_spec s token pipe_id).2.2 t with h2 | h2 <;> rw [h2]
  · exact h
  · rfl

/-! ### Step- and run-level invariant preservation -/

theorem step_pres_values (cfg : Config) (s : AppState) (op : Op)
    (hcfg : cfg.min_value ≤ cfg.max_value)
    (hinv : ValuesInRange cfg s) : ValuesInRange cfg (step cfg s op) := by
  cases op with
  | collectOp t p => exact collect_pres_values cfg s t p hcfg hinv
  | inspectOp t p =>
    intro i q hq
    have hq2 : (pipe_value s t p).1.pipes i = some q := hq
    rw [(pipe_value_fst_spec s t p).1] at hq2
    exact hinv i q hq2
  | applyOp t p m d => exact apply_pres_values cfg s t p m d hinv

theorem run_pres_values (cfg : Config) (s : AppState) (ops : List Op)
    (hcfg : cfg.min_value ≤ cfg.max_value)
    (hinv : ValuesInRange cfg s) : ValuesInRange cfg (run cfg s ops) := by
  induction ops generalizing s with
  | nil => exact hinv
  | cons op ops ih => exact ih (step cfg s op) (step_pres_values cfg s op hcfg hinv)

theorem step_pres_nonneg (cfg : Config) (s : AppState) (op : Op)
    (hmin : 0 ≤ cfg.min_value)
    (hinvV : ValuesInRange cfg s) (hinvS : ScoresNonneg s) :
    ScoresNonneg (step cfg s op) := by
  cases op with
  | collectOp t p => exact collect_pres_nonneg cfg s t p hmin hinvV hinvS
  | inspectOp t p =>
    intro u sc hu
    have hu2 : (pipe_value s t p).1.users u = some sc := hu
    rcases (pipe_value_fst_spec s t p).2.2 u with h2 | h2 <;> rw [h2] at hu2
    · exact hinvS u sc hu2
    · injection hu2 with hu3
      rw [← hu3]
  | applyOp t p m d => exact apply_pres_nonneg cfg s t p m d hinvS

theorem run_pres_nonneg (cfg : Config) (s : AppState) (ops : List Op)
    (hcfg : cfg.min_value ≤ cfg.max_value) (hmin : 0 ≤ cfg.min_value)
    (hinvV : ValuesInRange cfg s) (hinvS : ScoresNonneg s) :
    ScoresNonneg (run cfg s ops) := by
  induction ops generalizing s with
  | nil => exact hinvS
  | cons op ops ih =>
    exact ih (step cfg s op) (step_pres_values cfg s op hcfg hinvV)
      (step_pres_nonneg cfg s op hmin hinvV hinvS)

theorem step_pres_mods (cfg : Config) (s : AppState) (op : Op)
    (huses : UsesPositive cfg) (hinv : ModsPositive s) :
    ModsPositive (step cfg s op) := by
  cases op with
  | collectOp t p => exact collect_pres_mods cfg s t p hinv
  | inspectOp t p =>
    intro i q k n hq hk
    have hq2 : (pipe_value s t p).1.pipes i = some q := hq
    rw [(pipe_value_fst_spec s t p).1] at hq2
    exact hinv i q k n hq2 hk
  | applyOp t p m d => exact apply_pres_mods cfg s t p m d huses hinv

theorem run_pres_mods (cfg : Config) (s : AppState) (ops : List Op)
    (huses : UsesPositive cfg) (hinv : ModsPositive s) :
    ModsPositive (run cfg s ops) := by
  induction ops generalizing s with
  | nil => exact hinv
  | cons op ops ih => exact ih (step cfg s op) (step_pres_mods cfg s op huses hinv)

theorem step_pres_closed (cfg : Config) (s : AppState) (op : Op)
    (roster : List String) (hinv : ClosedRoster roster s) :
    ClosedRoster roster (step cfg s op) := by
  cases op with
  | collectOp t p => exact collect_pres_closed cfg s t p roster hinv
  | inspectOp t p => exact pipe_value_pres_closed s t p roster hinv
  | applyOp t p m d => exact apply_pres_closed cfg s t p m d roster hinv

theorem run_pres_closed (cfg : Config) (s : AppState) (ops : List Op)
    (roster : List String) (hinv : ClosedRoster roster s) :
    ClosedRoster roster (run cfg s ops) := by
  induction ops generalizing s with
  | nil => exact hinv
  | cons op ops ih => exact ih (step cfg s op) (step_pres_closed cfg s op roster hinv)

theorem step_users_isSome (cfg : Config) (s : AppState) (op : Op) (t : String)
    (h : (s.users t).isSome) : ((step cfg s op).users t).isSome := by
  cases op with
  | collectOp u p => exact collect_users_isSome cfg s u p t h
  | inspectOp u p => exact pipe_value_users_isSome s u p t h
  | applyOp u p m d => exact apply_users_isSome cfg s u p m d t h

theorem run_users_isSome (cfg : Config) (s : AppState) (ops : List Op) (t : String)
    (h : (s.users t).isSome) : ((run cfg s ops).users t).isSome := by
  induction ops generalizing s with
  | nil => exact h
  | cons op ops ih => exact ih (step cfg s op) (step_users_isSome cfg s op t h)

/-! ### Properties of the initial state -/

theorem init_values (cfg : Config) (tokens : List String)
    (values : Nat → Score) (delays : Nat → Nat) (dirs : Nat → PipeDirection)
    (hvals : ∀ i, cfg.min_value ≤ values i ∧ values i ≤ cfg.max_value) :
    ValuesInRange cfg (App.init cfg tokens values delays dirs) := by
  intro i p hip
  unfold App.init at hip
  dsimp only at hip
  split at hip
  · injection hip with hip
    rw [← hip]
    exact hvals i
  · exact Option.noConfusion hip

theorem init_nonneg (cfg : Config) (tokens : List String)
    (values : Nat → Score) (delays : Nat → Nat) (dirs : Nat → PipeDirection) :
    ScoresNonneg (App.init cfg tokens values delays dirs) := by
  intro t sc hts
  unfold App.init at hts
  dsimp only at hts
  split at hts
  · injection hts with hts
    rw [← hts]
  · exact Option.noConfusion hts

theorem init_mods (cfg : Config) (tokens : List String)
    (values : Nat → Score) (delays : Nat → Nat) (dirs : Nat → PipeDirection) :
    ModsPositive (App.init cfg tokens values delays dirs) := by
  intro i p m n hip hmn
  unfold App.init at hip
  dsimp only at hip
  split at hip
  · injection hip with hip
    rw [← hip] at hmn
    exact Option.noConfusion hmn
  · exact Option.noConfusion hip

theorem init_closed (cfg : Config) (tokens : List String)
    (values : Nat → Score) (delays : Nat → Nat) (dirs : Nat → PipeDirection)
    (hne : tokens ≠ []) :
    ClosedRoster tokens (App.init cfg tokens values delays dirs) := by
  constructor
  · cases tokens with
    | nil => exact absurd rfl hne
    | cons a l => rfl
  · intro t ht
    unfold App.init
    dsimp only
    rw [if_neg ht]

/-! ### Remaining operation-level facts -/

theorem pipe_value_new_ok (s : AppState) (token : String) (pipe_id : Nat) (pipe : Pipe)
    (hu : s.users token = none) (ha : s.allow_unknown_users = true)
    (hp : s.pipes pipe_id = some pipe) :
    pipe_value s token pipe_id =
      ({ s with
          users := fun t => if t = token then some 0 else s.users t,
          locked := fun t => if t = token then false else s.locked t },
       .ok pipe.value) := by
  unfold pipe_value
  rw [try_lock_new s token hu ha]
  simp only [AppState.unlockUser, hp]
  refine Prod.ext ?_ rfl
  refine AppState.ext rfl rfl ?_ rfl rfl
  funext t
  by_cases ht : t = token <;> simp [ht]

theorem collect_body_snd_ne_unknown (cfg : Config) (s1 : AppState) (token : String)
    (pipe_id : Nat) (sc : Score) :
    (collect_body cfg s1 token pipe_id sc).2 ≠ .error .UserNotFound := by
  cases hp : s1.pipes pipe_id with
  | none =>
    rw [collect_body_no_pipe cfg s1 token pipe_id sc hp]
    simp
  | some pipe =>
    rw [collect_body_ok cfg s1 token pipe_id pipe sc hp]
    simp

theorem apply_body_snd_ne_unknown (cfg : Config) (s1 : AppState) (token : String)
    (pipe_id : Nat) (m : Modifier) (d : Nat) (sc : Score) :
    (apply_modifier_body cfg s1 token pipe_id m d sc).2 ≠ .error .UserNotFound := by
  cases hp : s1.pipes pipe_id with
  | none =>
    rw [apply_body_no_pipe cfg s1 token pipe_id m d sc hp]
    simp
  | some pipe =>
    by_cases hcost : sc < cfg.modifier_cost m
    · rw [apply_body_insufficient cfg s1 token pipe_id m d sc pipe hp hcost]
      simp
    · have hstack_or : (m = .slow ∨ m = .double ∨ m = .min) ∨ m = .shuffle ∨ m = .reverse := by
        cases m <;> simp
      rcases hstack_or with hm | rfl | rfl
      · by_cases hpm : (pipe.modifiers m).isSome
        · rw [apply_body_already cfg s1 token pipe_id m d sc pipe hp hcost hm hpm]
          simp
        · have hpm2 : pipe.modifiers m = none := by
            rcases hn : pipe.modifiers m with _ | n
            · rfl
            · rw [hn] at hpm
              exact absurd rfl hpm
          rw [apply_body_ok_stacking cfg s1 token pipe_id m d sc pipe hp hcost hm hpm2]
          simp
      · rw [apply_body_ok_shuffle cfg s1 token pipe_id d sc pipe hp hcost]
        simp
      · rw [apply_body_ok_reverse cfg s1 token pipe_id d sc pipe hp hcost]
        simp

/-! ### Concrete fixtures for scenarios, witnesses and counterexamples -/

/-- A small well-behaved config (`min_value = 100`, `max_value = 200`,
Double costs 5 with 1 use) matching the spec's scenarios. -/
def cfgA : Config :=
  { reverse_cost := 3, double_cost := 5, double_uses := 1, slow_cost := 4, slow_uses := 2,
    shuffle_cost := 2, min_cost := 6, min_uses := 1, pipe_count := 1,
    min_value := 100, max_value := 200 }

/-- One pipe at value 199 drifting up, roster `["alice"]`. -/
def stWrap : AppState :=
  App.init cfgA ["alice"] (fun _ => 199) (fun _ => 7) (fun _ => .up)

/-- Player "alice" with score 10; pipe 1 at value 50 carrying a Double
modifier with 1 use. -/
def stC1 : AppState :=
  { allow_unknown_users := false
    users := fun t => if t = "alice" then some 10 else none
    locked := fun _ => false
    pipes := fun i =>
      if i = 1 then
        some { value := 50, base_delay := 7, direction := .up,
               modifiers := fun k => if k = Modifier.double then some 1 else none }
      else none
    history := [] }

/-! ### The claims -/

/-- C1: a successful Collect awards the pipe's value, doubled when a
Double entry is present, then overridden by the configured `min_value`
when a Min entry is present (Min after Double); the award is credited
to the player and returned, and one use of each involved modifier is
consumed (the entry disappearing when its count hits zero).

The claim speaks of collects that succeed, so the hypothesis `hpos`
restricts to pipes whose stored use-counts are positive — on a
zero-count entry the source's `assert_ne!(*uses_left, 0)` aborts the
collect instead.  Under `hpos` the theorem first concludes that none
of the collect's three `use_modifier` calls abort, so the model's
successful path is the code's. -/
theorem claim_C1 (cfg : Config) (s : AppState) (token : String) (pipe_id : Nat)
    (pipe : Pipe) (sc : Score)
    (hu : s.users token = some sc) (hl : s.locked token = false)
    (hp : s.pipes pipe_id = some pipe)
    (hpos : ∀ k n, pipe.modifiers k = some n → 0 < n) :
    (¬ pipe.use_modifier_panics Modifier.slow ∧
     ¬ (pipe.use_modifier Modifier.slow).1.use_modifier_panics Modifier.double ∧
     ¬ ((pipe.use_modifier Modifier.slow).1.use_modifier
         Modifier.double).1.use_modifier_panics Modifier.min) ∧
    (collect cfg s token pipe_id).2 =
      .ok (if (pipe.modifiers Modifier.min).isSome then cfg.min_value
           else if (pipe.modifiers Modifier.double).isSome then pipe.value * 2
           else pipe.value) ∧
    (collect cfg s token pipe_id).1.users token =
      some (sc + (if (pipe.modifiers Modifier.min).isSome then cfg.min_value
           else if (pipe.modifiers Modifier.double).isSome then pipe.value * 2
           else pipe.value)) ∧
    ∃ p2, (collect cfg s token pipe_id).1.pipes pipe_id = some p2 ∧
      p2.modifiers Modifier.double = consumeEntry (pipe.modifiers Modifier.double) ∧
      p2.modifiers Modifier.min = consumeEntry (pipe.modifiers Modifier.min) := by
  refine ⟨collect_no_panic pipe hpos, ?_⟩
  rw [collect_ok cfg s token pipe_id pipe sc hu hl hp]
  refine ⟨rfl, by simp [collectAward], ?_⟩
  refine ⟨afterCollect cfg pipe, by simp, rfl, rfl⟩

/-- C1 witness: pipe value 50 carrying Double with 1 use, player score
10 — Collect awards 100, credits 110, and removes the Double entry. -/
theorem claim_C1_witness :
    (collect cfgA stC1 "alice" 1).2 = .ok 100 ∧
    (collect cfgA stC1 "alice" 1).1.users "alice" = some 110 ∧
    ∃ p2, (collect cfgA stC1 "alice" 1).1.pipes 1 = some p2 ∧
      p2.modifiers Modifier.double = none := by
  have h := claim_C1 cfgA stC1 "alice" 1
    { value := 50, base_delay := 7, direction := .up,
      modifiers := fun k => if k = Modifier.double then some 1 else none }
    10 rfl rfl rfl
    (by intro k n hk; cases k <;> simp_all <;> omega)
  obtain ⟨_, h1, h2, p2, hp2, hd, _⟩ := h
  refine ⟨by simpa using h1, by simpa using h2, p2, hp2, by simpa [consumeEntry] using hd⟩

/-- C2: with a valid config and initial pipe values drawn inside the
bounds, every pipe of every reachable state has
`min_value ≤ value ≤ max_value`; and in the concrete wrap scenario
(`min_value = 100`, `max_value = 200`, direction Up) a pipe at 199
advances to 200 on collection and a further collection wraps it to
100. -/
theorem claim_C2 (cfg : Config) (tokens : List String) (values : Nat → Score)
    (delays : Nat → Nat) (dirs : Nat → PipeDirection) (ops : List Op)
    (hcfg : cfg.min_value ≤ cfg.max_value)
    (hvals : ∀ i, cfg.min_value ≤ values i ∧ values i ≤ cfg.max_value) :
    ValuesInRange cfg (App.init cfg tokens values delays dirs) ∧
    ValuesInRange cfg (run cfg (App.init cfg tokens values delays dirs) ops) ∧
    ((collect cfgA stWrap "alice" 1).1.pipes 1).map Pipe.value = some 200 ∧
    ((run cfgA stWrap
        [.collectOp "alice" 1, .collectOp "alice" 1]).pipes 1).map Pipe.value =
      some 100 := by
  refine ⟨init_values cfg tokens values delays dirs hvals,
    run_pres_values cfg _ ops hcfg (init_values cfg tokens values delays dirs hvals),
    by decide, by decide⟩

/-- C2 witness: instantiated at the concrete wrap config. -/
theorem claim_C2_witness :
    (cfgA.min_value ≤ cfgA.max_value ∧
      ∀ i : Nat, cfgA.min_value ≤ (199 : Score) ∧ (199 : Score) ≤ cfgA.max_value) ∧
    (ValuesInRange cfgA stWrap ∧
     ValuesInRange cfgA (run cfgA stWrap []) ∧
     ((collect cfgA stWrap "alice" 1).1.pipes 1).map Pipe.value = some 200 ∧
     ((run cfgA stWrap
        [.collectOp "alice" 1, .collectOp "alice" 1]).pipes 1).map Pipe.value =
       some 100) :=
  ⟨⟨by decide, fun _ =>
      (by decide : cfgA.min_value ≤ (199 : Score) ∧ (199 : Score) ≤ cfgA.max_value)⟩,
   claim_C2 cfgA ["alice"] (fun _ => 199) (fun _ => 7) (fun _ => .up) []
     (by decide) (fun _ =>
      (by decide : cfgA.min_value ≤ (199 : Score) ∧ (199 : Score) ≤ cfgA.max_value))⟩

/-- C3: ApplyModifier with a score strictly below the configured cost
fails with `NotEnoughScore` (the spec's InsufficientScore) leaving the
whole state unchanged; a successful ApplyModifier debits exactly the
configured cost. -/
theorem claim_C3 (cfg : Config) (s : AppState) (token : String) (pipe_id : Nat)
    (m : Modifier) (d : Nat) (pipe : Pipe) (sc : Score)
    (hu : s.users token = some sc) (hl : s.locked token = false)
    (hp : s.pipes pipe_id = some pipe) :
    (sc < cfg.modifier_cost m →
      apply_modifier cfg s token pipe_id m d = (s, .error .NotEnoughScore)) ∧
    ((apply_modifier cfg s token pipe_id m d).2 = .ok () →
      (apply_modifier cfg s token pipe_id m d).1.users token =
        some (sc - cfg.modifier_cost m)) := by
  constructor
  · intro hcost
    exact apply_modifier_insufficient cfg s token pipe_id m d pipe sc hu hl hp hcost
  · intro hok
    by_cases hcost : sc < cfg.modifier_cost m
    · rw [apply_modifier_insufficient cfg s token pipe_id m d pipe sc hu hl hp hcost] at hok
      exact absurd hok (by simp)
    · have hstack_or : (m = .slow ∨ m = .double ∨ m = .min) ∨ m = .shuffle ∨ m = .reverse := by
        cases m <;> simp
      rcases hstack_or with hm | rfl | rfl
      · by_cases hpm : (pipe.modifiers m).isSome
        · rw [apply_modifier_already cfg s token pipe_id m d pipe sc hu hl hp hcost hm hpm] at hok
          exact absurd hok (by simp)
        · have hpm2 : pipe.modifiers m = none := by
            rcases hn : pipe.modifiers m with _ | n
            · rfl
            · rw [hn] at hpm
              exact absurd rfl hpm
          rw [apply_modifier_ok_stacking cfg s token pipe_id m d pipe sc hu hl hp hcost hm hpm2]
          simp
      · rw [apply_modifier_ok_shuffle cfg s token pipe_id d pipe sc hu hl hp hcost]
        simp [Config.modifier_cost]
      · rw [apply_modifier_ok_reverse cfg s token pipe_id d pipe sc hu hl hp hcost]
        simp [Config.modifier_cost]

/-- C3 witness: player "alice" with score 10 and pipe 1 present. -/
theorem claim_C3_witness :
    stC1.users "alice" = some 10 ∧ stC1.locked "alice" = false ∧
    (stC1.pipes 1).isSome ∧
    (((10 : Score) < cfgA.modifier_cost .min →
      apply_modifier cfgA stC1 "alice" 1 .min 0 = (stC1, .error .NotEnoughScore)) ∧
     ((apply_modifier cfgA stC1 "alice" 1 .min 0).2 = .ok () →
      (apply_modifier cfgA stC1 "alice" 1 .min 0).1.users "alice" =
        some (10 - cfgA.modifier_cost .min))) :=
  ⟨rfl, rfl, rfl,
   claim_C3 cfgA stC1 "alice" 1 .min 0
     { value := 50, base_delay := 7, direction := .up,
       modifiers := fun k => if k = Modifier.double then some 1 else none }
     10 rfl rfl rfl⟩

/-- A config whose value bounds are negative: `min_value = -5`,
`max_value = -1`. -/
def cfgNeg : Config :=
  { reverse_cost := 1, double_cost := 1, double_uses := 1, slow_cost := 1, slow_uses := 1,
    shuffle_cost := 1, min_cost := 1, min_uses := 1, pipe_count := 1,
    min_value := -5, max_value := -1 }

/-- Initial state under `cfgNeg`: one pipe at value −3 (inside the
configured bounds), roster `["alice"]`. -/
def stNeg : AppState :=
  App.init cfgNeg ["alice"] (fun _ => -3) (fun _ => 7) (fun _ => .up)

/-- C4 counterexample: with negative configured value bounds, a single
Collect drives the player's score from its initial 0 to −3 — the score
does go negative even though every spend check passed. -/
theorem claim_C4_counterexample :
    (∀ i : Nat, cfgNeg.min_value ≤ (-3 : Score) ∧ (-3 : Score) ≤ cfgNeg.max_value) ∧
    (collect cfgNeg stNeg "alice" 1).2 = .ok (-3) ∧
    (collect cfgNeg stNeg "alice" 1).1.users "alice" = some (-3) ∧
    (-3 : Score) < 0 :=
  ⟨fun _ => (by decide : cfgNeg.min_value ≤ (-3 : Score) ∧ (-3 : Score) ≤ cfgNeg.max_value),
   by decide, by decide, by decide⟩

/-- C4 (amended): provided the configured `min_value` is non-negative
(so pipe values, and hence every Collect award, are non-negative),
scores start at 0 and stay non-negative in every reachable state:
spend checks precede the debit and collects only add non-negative
amounts. -/
theorem claim_C4 (cfg : Config) (tokens : List String) (values : Nat → Score)
    (delays : Nat → Nat) (dirs : Nat → PipeDirection) (ops : List Op)
    (hcfg : cfg.min_value ≤ cfg.max_value) (hmin : 0 ≤ cfg.min_value)
    (hvals : ∀ i, cfg.min_value ≤ values i ∧ values i ≤ cfg.max_value) :
    ScoresNonneg (App.init cfg tokens values delays dirs) ∧
    ScoresNonneg (run cfg (App.init cfg tokens values delays dirs) ops) :=
  ⟨init_nonneg cfg tokens values delays dirs,
   run_pres_nonneg cfg _ ops hcfg hmin
     (init_values cfg tokens values delays dirs hvals)
     (init_nonneg cfg tokens values delays dirs)⟩

/-- C4 witness: the amended claim at the concrete config `cfgA`. -/
theorem claim_C4_witness :
    (cfgA.min_value ≤ cfgA.max_value ∧ (0 : Score) ≤ cfgA.min_value ∧
      ∀ i : Nat, cfgA.min_value ≤ (199 : Score) ∧ (199 : Score) ≤ cfgA.max_value) ∧
    (ScoresNonneg stWrap ∧
     ScoresNonneg (run cfgA stWrap [.collectOp "alice" 1])) :=
  ⟨⟨by decide, by decide, fun _ =>
      (by decide : cfgA.min_value ≤ (199 : Score) ∧ (199 : Score) ≤ cfgA.max_value)⟩,
   claim_C4 cfgA ["alice"] (fun _ => 199) (fun _ => 7) (fun _ => .up)
     [.collectOp "alice" 1] (by decide) (by decide)
     (fun _ =>
      (by decide : cfgA.min_value ≤ (199 : Score) ∧ (199 : Score) ≤ cfgA.max_value))⟩

/-- A config whose Double modifier is configured with zero uses (and
zero cost). -/
def cfgZero : Config :=
  { reverse_cost := 1, double_cost := 0, double_uses := 0, slow_cost := 1, slow_uses := 1,
    shuffle_cost := 1, min_cost := 1, min_uses := 1, pipe_count := 1,
    min_value := 1, max_value := 3 }

/-- Initial state under `cfgZero`: one pipe at value 2, roster
`["alice"]`. -/
def stZero : AppState :=
  App.init cfgZero ["alice"] (fun _ => 2) (fun _ => 7) (fun _ => .up)

/-- C5 counterexample: with `double_uses = 0` configured, ApplyModifier
succeeds and installs a Double entry whose use-count is zero — an
entry exists while its count is not strictly positive. -/
theorem claim_C5_counterexample :
    (apply_modifier cfgZero stZero "alice" 1 .double 0).2 = .ok () ∧
    ((apply_modifier cfgZero stZero "alice" 1 .double 0).1.pipes 1).map
      (fun p => p.modifiers Modifier.double) = some (some 0) :=
  ⟨by decide, by decide⟩

/-- C5 (amended): provided every stacking kind is configured with a
strictly positive use-count, every modifier entry of every reachable
state has a strictly positive count; consuming a use decrements the
count and consuming the last use removes the entry. -/
theorem claim_C5 (cfg : Config) (tokens : List String) (values : Nat → Score)
    (delays : Nat → Nat) (dirs : Nat → PipeDirection) (ops : List Op)
    (huses : UsesPositive cfg) :
    ModsPositive (run cfg (App.init cfg tokens values delays dirs) ops) ∧
    (∀ (p : Pipe) (m : Modifier), p.modifiers m = some 1 →
      ((p.use_modifier m).1).modifiers m = none) ∧
    (∀ (p : Pipe) (m : Modifier) (n : Nat), p.modifiers m = some n → 1 < n →
      ((p.use_modifier m).1).modifiers m = some (n - 1)) := by
  refine ⟨run_pres_mods cfg _ ops huses (init_mods cfg tokens values delays dirs), ?_, ?_⟩
  · intro p m hm
    rw [use_modifier_modifiers]
    simp [hm, consumeEntry]
  · intro p m n hm hn
    rw [use_modifier_modifiers]
    have : ¬ n - 1 = 0 := by omega
    simp [hm, consumeEntry, this]

/-- C5 witness: the amended claim at the concrete config `cfgA`. -/
theorem claim_C5_witness :
    UsesPositive cfgA ∧
    (ModsPositive (run cfgA stWrap [.applyOp "alice" 1 .double 0]) ∧
     (∀ (p : Pipe) (m : Modifier), p.modifiers m = some 1 →
       ((p.use_modifier m).1).modifiers m = none) ∧
     (∀ (p : Pipe) (m : Modifier) (n : Nat), p.modifiers m = some n → 1 < n →
       ((p.use_modifier m).1).modifiers m = some (n - 1))) :=
  ⟨by exact ⟨by decide, by decide, by decide⟩,
   claim_C5 cfgA ["alice"] (fun _ => 199) (fun _ => 7) (fun _ => .up)
     [.applyOp "alice" 1 .double 0] ⟨by decide, by decide, by decide⟩⟩

/-- C6: while an operation for a token is in flight (that token's
player lock held), any further Collect, InspectValue or ApplyModifier
for the same token fails immediately with `UserBusy` (the spec's
PlayerBusy) and changes nothing — it is rejected, not queued. -/
theorem claim_C6 (cfg : Config) (s : AppState) (token : String) (pipe_id : Nat)
    (m : Modifier) (d : Nat) (sc : Score)
    (hu : s.users token = some sc) (hl : s.locked token = true) :
    collect cfg s token pipe_id = (s, .error .UserBusy) ∧
    pipe_value s token pipe_id = (s, .error .UserBusy) ∧
    apply_modifier cfg s token pipe_id m d = (s, .error .UserBusy) :=
  ⟨collect_busy cfg s token pipe_id sc hu hl,
   pipe_value_busy s token pipe_id sc hu hl,
   apply_modifier_busy cfg s token pipe_id m d sc hu hl⟩

/-- State with "alice" mid-operation: her lock is held. -/
def stBusy : AppState :=
  { stC1 with locked := fun t => if t = "alice" then true else false }

/-- C6 witness: a second operation for "alice" while her lock is held
is rejected with `UserBusy`. -/
theorem claim_C6_witness :
    stBusy.users "alice" = some 10 ∧ stBusy.locked "alice" = true ∧
    (collect cfgA stBusy "alice" 1 = (stBusy, .error .UserBusy) ∧
     pipe_value stBusy "alice" 1 = (stBusy, .error .UserBusy) ∧
     apply_modifier cfgA stBusy "alice" 1 .double 0 = (stBusy, .error .UserBusy)) :=
  ⟨rfl, rfl, claim_C6 cfgA stBusy "alice" 1 .double 0 10 rfl rfl⟩

/-- C7: with a non-empty (closed) roster every operation with a token
outside the roster fails with `UserNotFound` (the spec's
PlayerUnknown) in every reachable state; with an empty (open) roster
an unseen token gets a fresh player with the default score 0 instead
of failing with `UserNotFound`.  Concretely, with roster `["alice"]` a
Collect for "bob" fails with `UserNotFound`. -/
theorem claim_C7 (cfg : Config) (roster : List String) (values : Nat → Score)
    (delays : Nat → Nat) (dirs : Nat → PipeDirection)
    (hne : roster ≠ []) :
    (∀ (ops : List Op) (T : String) (pid : Nat) (m : Modifier) (d : Nat), T ∉ roster →
      collect cfg (run cfg (App.init cfg roster values delays dirs) ops) T pid =
        (run cfg (App.init cfg roster values delays dirs) ops, .error .UserNotFound) ∧
      pipe_value (run cfg (App.init cfg roster values delays dirs) ops) T pid =
        (run cfg (App.init cfg roster values delays dirs) ops, .error .UserNotFound) ∧
      apply_modifier cfg (run cfg (App.init cfg roster values delays dirs) ops) T pid m d =
        (run cfg (App.init cfg roster values delays dirs) ops, .error .UserNotFound)) ∧
    (∀ (s : AppState) (token : String) (pid : Nat) (m : Modifier) (d : Nat),
      s.allow_unknown_users = true → s.users token = none →
      (s.try_lock_user token).2 = .ok 0 ∧
      (s.try_lock_user token).1.users token = some 0 ∧
      (collect cfg s token pid).2 ≠ .error .UserNotFound ∧
      ((collect cfg s token pid).1.users token).isSome ∧
      (pipe_value s token pid).2 ≠ .error .UserNotFound ∧
      ((pipe_value s token pid).1.users token).isSome ∧
      (apply_modifier cfg s token pid m d).2 ≠ .error .UserNotFound ∧
      ((apply_modifier cfg s token pid m d).1.users token).isSome) ∧
    (collect cfgA stWrap "bob" 1).2 = .error .UserNotFound := by
  refine ⟨?_, ?_, by decide⟩
  · intro ops T pid m d hT
    obtain ⟨ha, husers⟩ :=
      run_pres_closed cfg _ ops roster (init_closed cfg roster values delays dirs hne)
    exact ⟨collect_unknown cfg _ T pid (husers T hT) ha,
      pipe_value_unknown _ T pid (husers T hT) ha,
      apply_modifier_unknown cfg _ T pid m d (husers T hT) ha⟩
  · intro s token pid m d ha hu
    refine ⟨by rw [try_lock_new s token hu ha], by rw [try_lock_new s token hu ha]; simp,
      ?_, ?_, ?_, ?_, ?_, ?_⟩
    · cases hp : s.pipes pid with
      | none =>
        rw [collect_new_no_pipe cfg s token pid hu ha hp]
        simp
      | some pipe =>
        rw [collect_new_ok cfg s token pid pipe hu ha hp]
        simp
    · cases hp : s.pipes pid with
      | none =>
        rw [collect_new_no_pipe cfg s token pid hu ha hp]
        simp
      | some pipe =>
        rw [collect_new_ok cfg s token pid pipe hu ha hp]
        simp
    · cases hp : s.pipes pid with
      | none =>
        rw [pipe_value_new_no_pipe s token pid hu ha hp]
        simp
      | some pipe =>
        rw [pipe_value_new_ok s token pid pipe hu ha hp]
        simp
    · cases hp : s.pipes pid with
      | none =>
        rw [pipe_value_new_no_pipe s token pid hu ha hp]
        simp
      | some pipe =>
        rw [pipe_value_new_ok s token pid pipe hu ha hp]
        simp
    · have happly : apply_modifier cfg s token pid m d =
          apply_modifier_body cfg
            { s with
                users := fun t => if t = token then some 0 else s.users t,
                locked := fun t => if t = token then true else s.locked t }
            token pid m d 0 := by
        unfold apply_modifier
        rw [try_lock_new s token hu ha]
      rw [happly]
      exact apply_body_snd_ne_unknown cfg _ token pid m d 0
    · have happly : apply_modifier cfg s token pid m d =
          apply_modifier_body cfg
            { s with
                users := fun t => if t = token then some 0 else s.users t,
                locked := fun t => if t = token then true else s.locked t }
            token pid m d 0 := by
        unfold apply_modifier
        rw [try_lock_new s token hu ha]
      rw [happly]
      rcases (apply_body_fst_spec cfg
          { s with
              users := fun t => if t = token then some 0 else s.users t,
              locked := fun t => if t = token then true else s.locked t }
          token pid m d 0).2.1 token with h2 | ⟨_, _, h2⟩ <;> rw [h2]
      · simp
      · rfl

/-- C7 witness: the closed roster `["alice"]`. -/
theorem claim_C7_witness :
    (["alice"] : List String) ≠ [] ∧
    ((collect cfgA (run cfgA (App.init cfgA ["alice"] (fun _ => 199) (fun _ => 7)
        (fun _ => .up)) []) "bob" 1).2 = .error .UserNotFound) := by
  have h := claim_C7 cfgA ["alice"] (fun _ => 199) (fun _ => 7) (fun _ => .up)
    (by decide)
  refine ⟨by decide, ?_⟩
  have h2 := (h.1 [] "bob" 1 .double 0 (by decide)).1
  rw [h2]

/-- Config for the C8 counterexample: Double costs 2 (1 use), pipe
values in `[1, 3]`. -/
def cfgB : Config :=
  { reverse_cost := 1, double_cost := 2, double_uses := 1, slow_cost := 1, slow_uses := 1,
    shuffle_cost := 1, min_cost := 1, min_uses := 1, pipe_count := 1,
    min_value := 1, max_value := 3 }

/-- Initial state under `cfgB`: one pipe at value 2, roster
`["alice"]`. -/
def stB : AppState :=
  App.init cfgB ["alice"] (fun _ => 2) (fun _ => 7) (fun _ => .up)

/-- Reachable state in which "alice" has score 0 and pipe 1 carries a
Double entry: she collected 2 and spent it applying Double. -/
def stB2 : AppState :=
  run cfgB stB [.collectOp "alice" 1, .applyOp "alice" 1 .double 0]

/-- C8 counterexample: the cost check precedes the already-applied
check, so with a Double entry present on the pipe but an insufficient
score, ApplyModifier fails with `NotEnoughScore`, not
`ModifierAlreadyApplied` — refuting "fails with ModifierAlreadyApplied
exactly when an entry for that kind is already present". -/
theorem claim_C8_counterexample :
    (stB2.pipes 1).map (fun p => (p.modifiers Modifier.double).isSome) = some true ∧
    stB2.users "alice" = some 0 ∧
    (apply_modifier cfgB stB2 "alice" 1 .double 0).2 = .error .NotEnoughScore ∧
    (apply_modifier cfgB stB2 "alice" 1 .double 0).2 ≠ .error .ModifierAlreadyApplied :=
  ⟨by decide, by decide, by decide, by decide⟩

/-- C8 (amended): for a stacking kind, once the lock, roster, pipe and
score checks pass, ApplyModifier fails with `ModifierAlreadyApplied`
exactly when an entry for that kind is already present (leaving the
whole state unchanged), and succeeds again once the entry is gone —
as it is after collections exhaust its uses. -/
theorem claim_C8 (cfg : Config) (s : AppState) (token : String) (pipe_id : Nat)
    (m : Modifier) (d : Nat) (pipe : Pipe) (sc : Score)
    (hu : s.users token = some sc) (hl : s.locked token = false)
    (hp : s.pipes pipe_id = some pipe)
    (hm : m = .slow ∨ m = .double ∨ m = .min)
    (hcost : ¬ sc < cfg.modifier_cost m) :
    ((apply_modifier cfg s token pipe_id m d).2 = .error .ModifierAlreadyApplied ↔
      (pipe.modifiers m).isSome) ∧
    ((pipe.modifiers m).isSome →
      apply_modifier cfg s token pipe_id m d = (s, .error .ModifierAlreadyApplied)) ∧
    (pipe.modifiers m = none →
      (apply_modifier cfg s token pipe_id m d).2 = .ok ()) := by
  by_cases hpm : (pipe.modifiers m).isSome
  · rw [apply_modifier_already cfg s token pipe_id m d pipe sc hu hl hp hcost hm hpm]
    refine ⟨by simp [hpm], fun _ => rfl, ?_⟩
    intro hnone
    rw [hnone] at hpm
    simp at hpm
  · have hpm2 : pipe.modifiers m = none := by
      rcases hn : pipe.modifiers m with _ | n
      · rfl
      · rw [hn] at hpm
        exact absurd rfl hpm
    rw [apply_modifier_ok_stacking cfg s token pipe_id m d pipe sc hu hl hp hcost hm hpm2]
    exact ⟨by simp [hpm2], fun hs => absurd hs hpm, fun _ => rfl⟩

/-- C8 witness: "alice" (score 10) re-applies Double to a pipe already
carrying it — `ModifierAlreadyApplied`. -/
theorem claim_C8_witness :
    stC1.users "alice" = some 10 ∧ stC1.locked "alice" = false ∧
    ¬ (10 : Score) < cfgA.modifier_cost .double ∧
    (((apply_modifier cfgA stC1 "alice" 1 .double 0).2 =
        .error .ModifierAlreadyApplied ↔ True) ∧
     (apply_modifier cfgA stC1 "alice" 1 .double 0 =
        (stC1, .error .ModifierAlreadyApplied))) := by
  have h := claim_C8 cfgA stC1 "alice" 1 .double 0
    { value := 50, base_delay := 7, direction := .up,
      modifiers := fun k => if k = Modifier.double then some 1 else none }
    10 rfl rfl rfl (Or.inr (Or.inl rfl)) (by decide)
  refine ⟨rfl, rfl, by decide, ?_, ?_⟩
  · rw [h.1]
    simp
  · exact h.2.1 (by decide)

/-- C9: a successful Collect appends exactly, in order: `UpdatePipe`
with the Slow modifier consumed (the wait doubling when Slow was
present), `CollectStart` recording that wait, `CollectEnd` after the
wait, then `UpdatePipe` with the advanced pipe and `UpdateUser` with
the credited score.

The claim speaks of successful collects, so the hypothesis `hpos`
restricts to pipes whose stored use-counts are positive — on a
zero-count entry the source's `assert_ne!(*uses_left, 0)` aborts the
collect mid-operation, truncating the log.  Under `hpos` the theorem
first concludes that none of the collect's three `use_modifier` calls
abort, so the model's five appended events are the code's. -/
theorem claim_C9 (cfg : Config) (s : AppState) (token : String) (pipe_id : Nat)
    (pipe : Pipe) (sc : Score)
    (hu : s.users token = some sc) (hl : s.locked token = false)
    (hp : s.pipes pipe_id = some pipe)
    (hpos : ∀ k n, pipe.modifiers k = some n → 0 < n) :
    (¬ pipe.use_modifier_panics Modifier.slow ∧
     ¬ (pipe.use_modifier Modifier.slow).1.use_modifier_panics Modifier.double ∧
     ¬ ((pipe.use_modifier Modifier.slow).1.use_modifier
         Modifier.double).1.use_modifier_panics Modifier.min) ∧
    (collect cfg s token pipe_id).2 = .ok (collectAward cfg pipe) ∧
    (collect cfg s token pipe_id).1.history = s.history ++
      [.UpdatePipe pipe_id (afterSlow pipe),
       .CollectStart token pipe_id
         (if (pipe.modifiers Modifier.slow).isSome then pipe.base_delay * 2
          else pipe.base_delay),
       .CollectEnd token,
       .UpdatePipe pipe_id (afterCollect cfg pipe),
       .UpdateUser token (sc + collectAward cfg pipe)] := by
  refine ⟨collect_no_panic pipe hpos, ?_⟩
  rw [collect_ok cfg s token pipe_id pipe sc hu hl hp]
  exact ⟨rfl, rfl⟩

/-- C9 witness: the concrete collect on `stC1` produces the five
events in order (no Slow present, so the wait is the base delay 7). -/
theorem claim_C9_witness :
    ((collect cfgA stC1 "alice" 1).2 = .ok (collectAward cfgA
      { value := 50, base_delay := 7, direction := .up,
        modifiers := fun k => if k = Modifier.double then some 1 else none }) ∧
     (collect cfgA stC1 "alice" 1).1.history = stC1.history ++
      [.UpdatePipe 1 (afterSlow
         { value := 50, base_delay := 7, direction := .up,
           modifiers := fun k => if k = Modifier.double then some 1 else none }),
       .CollectStart "alice" 1 7,
       .CollectEnd "alice",
       .UpdatePipe 1 (afterCollect cfgA
         { value := 50, base_delay := 7, direction := .up,
           modifiers := fun k => if k = Modifier.double then some 1 else none }),
       .UpdateUser "alice" (10 + collectAward cfgA
         { value := 50, base_delay := 7, direction := .up,
           modifiers := fun k => if k = Modifier.double then some 1 else none })]) := by
  have h := claim_C9 cfgA stC1 "alice" 1
    { value := 50, base_delay := 7, direction := .up,
      modifiers := fun k => if k = Modifier.double then some 1 else none }
    10 rfl rfl rfl
    (by intro k n hk; cases k <;> simp_all <;> omega)
  exact ⟨h.2.1, by rw [h.2.2]; simp⟩

/-- C10: under an open roster, an operation with an unseen token and an
invalid pipe id returns `PipeNotFound` yet still registers a fresh
player with score 0 for that token (lazy creation precedes pipe-id
validation), and that player persists through any later operations. -/
theorem claim_C10 (cfg : Config) (s : AppState) (token : String) (pipe_id : Nat)
    (m : Modifier) (d : Nat)
    (ha : s.allow_unknown_users = true) (hu : s.users token = none)
    (hp : s.pipes pipe_id = none) :
    collect cfg s token pipe_id =
      ({ s with
          users := fun t => if t = token then some 0 else s.users t,
          locked := fun t => if t = token then false else s.locked t },
       .error .PipeNotFound) ∧
    pipe_value s token pipe_id =
      ({ s with
          users := fun t => if t = token then some 0 else s.users t,
          locked := fun t => if t = token then false else s.locked t },
       .error .PipeNotFound) ∧
    apply_modifier cfg s token pipe_id m d =
      ({ s with
          users := fun t => if t = token then some 0 else s.users t,
          locked := fun t => if t = token then false else s.locked t },
       .error .PipeNotFound) ∧
    (collect cfg s token pipe_id).1.users token = some 0 ∧
    (∀ ops : List Op,
      ((run cfg (collect cfg s token pipe_id).1 ops).users token).isSome) := by
  refine ⟨collect_new_no_pipe cfg s token pipe_id hu ha hp,
    pipe_value_new_no_pipe s token pipe_id hu ha hp,
    apply_modifier_new_no_pipe cfg s token pipe_id m d hu ha hp, ?_, ?_⟩
  · rw [collect_new_no_pipe cfg s token pipe_id hu ha hp]
    simp
  · intro ops
    refine run_users_isSome cfg _ ops token ?_
    rw [collect_new_no_pipe cfg s token pipe_id hu ha hp]
    simp

/-- An open-roster initial state (empty roster): one pipe under
`cfgA`. -/
def stOpen : AppState :=
  App.init cfgA [] (fun _ => 199) (fun _ => 7) (fun _ => .up)

/-- C10 witness: "carol" is unseen and pipe 5 does not exist, yet her
player is created with score 0 and survives a later operation. -/
theorem claim_C10_witness :
    stOpen.allow_unknown_users = true ∧ stOpen.users "carol" = none ∧
    stOpen.pipes 5 = none ∧
    ((collect cfgA stOpen "carol" 5).2 = .error .PipeNotFound ∧
     (collect cfgA stOpen "carol" 5).1.users "carol" = some 0) := by
  have h := claim_C10 cfgA stOpen "carol" 5 .double 0 rfl rfl rfl
  exact ⟨rfl, rfl, rfl, by rw [h.1], h.2.2.2.1⟩
